import Mathlib

/-!
Shallow embedding of the `pallet-domains` runtime module
(`crates/pallet-domains/src/lib.rs` of the subspace repository): the
bundle / execution-receipt pipeline, fraud-proof processing, unsigned
transaction validation, the block-boundary hooks and the tx-range
controller, together with proofs about them.

Modelling conventions:
* The runtime's generic unsigned integer types (consensus and domain
  block numbers, balances, slots) are modelled as `Nat`.  `U256` and
  `u64` quantities are modelled as `Nat` with explicit saturation at
  `2 ^ 256 - 1` respectively `2 ^ 64 - 1` exactly where the source
  saturates.
* Hashes are modelled as `Nat`; structural hashing is an injective
  pairing encoding of the hashed fields.
* Storage maps (`StorageMap`, `StorageDoubleMap`, `StorageNMap`) are
  modelled as total functions from their keys, with the `ValueQuery`
  default as the initial value; `SuccessfulBundles` is modelled as an
  association list because `on_initialize` drains (enumerates) it.
* Code of the repository that lives outside `crates/pallet-domains/src/lib.rs`
  (the `block_tree`, `staking`, `staking_epoch`, `bundle_storage_fund`
  sub-modules and the external crates `sp_domains` /
  `sp_domains_fraud_proof`) is modelled from the specification; each
  such definition carries a doc comment starting with
  `Modelled from the spec:`.  Everything else is translated directly
  from `lib.rs`.
-/

namespace PalletDomains


/-- `U256::MAX`. -/
def U256_MAX : Nat := 2 ^ 256 - 1

/-- `TransactionPriority::MAX` (`u64::MAX`). -/
def U64_MAX : Nat := 2 ^ 64 - 1

/-- Pointwise update of a one-key storage map (`StorageMap::insert` /
`remove`, where `none` or the default value plays the role of an absent
key). -/
def setF {β : Type} (f : Nat → β) (k : Nat) (v : β) : Nat → β :=
  fun x => if x = k then v else f x

/-- Pointwise update of a two-key storage map. -/
def setF2 {β : Type} (f : Nat → Nat → β) (k₁ k₂ : Nat) (v : β) : Nat → Nat → β :=
  fun x y => if x = k₁ ∧ y = k₂ then v else f x y

theorem setF_self {β : Type} (f : Nat → β) (k : Nat) (v : β) : setF f k v k = v := by
  simp [setF]

theorem setF_ne {β : Type} (f : Nat → β) (k : Nat) (v : β) (x : Nat) (h : x ≠ k) :
    setF f k v x = f x := by
  simp [setF, h]

theorem setF2_self {β : Type} (f : Nat → Nat → β) (k₁ k₂ : Nat) (v : β) :
    setF2 f k₁ k₂ v k₁ k₂ = v := by
  simp [setF2]

theorem setF2_ne {β : Type} (f : Nat → Nat → β) (k₁ k₂ : Nat) (v : β) (x y : Nat)
    (h : ¬(x = k₁ ∧ y = k₂)) : setF2 f k₁ k₂ v x y = f x y := by
  simp [setF2, h]

/-! ### The tx-range controller (`calculate_tx_range`) -/

/-- `U256::saturating_mul` on the `Nat` model of `U256`. -/
def u256SaturatingMul (a b : Nat) : Nat := min (a * b) U256_MAX

/-- `U256::checked_div` on the `Nat` model of `U256`. -/
def u256CheckedDiv (a b : Nat) : Option Nat := if b = 0 then none else some (a / b)

/-- `Ord::clamp` on `U256` (never invoked with `lo > hi` by
`calculate_tx_range`, since `cur / 4 ≤ cur * 4` always holds). -/
def u256Clamp (x lo hi : Nat) : Nat := max lo (min x hi)

/-- Translated from `lib.rs` `calculate_tx_range`: the new tx range
based on the bundles produced during the interval. -/
def calculate_tx_range (cur_tx_range actual_bundle_count expected_bundle_count : Nat) : Nat :=
  if actual_bundle_count = 0 ∨ expected_bundle_count = 0 then cur_tx_range
  else
    match u256CheckedDiv (u256SaturatingMul actual_bundle_count cur_tx_range)
        expected_bundle_count with
    | none => cur_tx_range
    | some new_tx_range =>
      let upper_bound := u256SaturatingMul cur_tx_range 4
      match u256CheckedDiv cur_tx_range 4 with
      | none => cur_tx_range
      | some lower_bound => u256Clamp new_tx_range lower_bound upper_bound

/-! ### Data model -/

/-- Reason for slashing an operator (`SlashedReason` in `lib.rs`). -/
inductive SlashedReason where
  | InvalidBundle (domainBlockNumber : Nat)
  | BadExecutionReceipt (receiptHash : Nat)
  | BundleEquivocation (slot : Nat)
deriving DecidableEq, Repr

/-- Operator status (`staking::OperatorStatus`).  Modelled from the spec:
status ∈ {Registered, Deregistered, Slashed, PendingSlash}. -/
inductive OperatorStatus where
  | Registered
  | Deregistered
  | Slashed
  | PendingSlash
deriving DecidableEq, Repr

/-- Modelled from the spec: the fields of `staking::Operator` read by
`lib.rs` (signing key, status, current total stake); the staking-ledger
fields not read by the embedded operations are omitted. -/
structure Operator where
  signingKey : Nat
  status : OperatorStatus
  currentTotalStake : Nat
deriving DecidableEq, Repr

/-- The execution receipt (`sp_domains::ExecutionReceipt`).  Only the
fields read by the embedded operations are modelled;
`invalidBundleAuthors` abstracts the operators of the bundles the
receipt marked as invalid (derived from `inboxed_bundles` in the
source). -/
structure ExecutionReceipt where
  domainBlockNumber : Nat
  domainBlockHash : Nat
  parentDomainBlockReceiptHash : Nat
  consensusBlockNumber : Nat
  consensusBlockHash : Nat
  invalidBundleAuthors : List Nat
deriving DecidableEq, Repr

/-- Injective encoding of a list of naturals, used by the structural
hash. -/
def encodeList : List Nat → Nat
  | [] => 0
  | a :: l => Nat.pair a (encodeList l) + 1

/-- Structural hash of an execution receipt
(`ExecutionReceipt::hash::<DomainHashingFor<T>>()`), modelled as an
injective pairing of the receipt's fields. -/
def erHash (er : ExecutionReceipt) : Nat :=
  Nat.pair er.domainBlockNumber
    (Nat.pair er.domainBlockHash
      (Nat.pair er.parentDomainBlockReceiptHash
        (Nat.pair er.consensusBlockNumber
          (Nat.pair er.consensusBlockHash (encodeList er.invalidBundleAuthors)))))

/-- A block-tree node (`block_tree::BlockTreeNode`): the stored form of
an execution receipt together with the operators that submitted an
equivalent receipt at this node. -/
structure BlockTreeNode where
  executionReceipt : ExecutionReceipt
  operatorIds : List Nat
deriving DecidableEq, Repr

/-- `sp_domains::BundleDigest`: {bundle_header_hash, extrinsics_root, size}. -/
structure BundleDigest where
  headerHash : Nat
  extrinsicsRoot : Nat
  size : Nat
deriving DecidableEq, Repr

/-- `sp_domains::ConfirmedDomainBlock` (the fields read by `lib.rs`). -/
structure ConfirmedDomainBlock where
  blockNumber : Nat
  blockHash : Nat
deriving DecidableEq, Repr

/-- Parameters used to verify the proof of election
(`ElectionVerificationParams` in `lib.rs`); the operator-stake map is an
association list. -/
structure ElectionVerificationParams where
  operators : List (Nat × Nat)
  totalDomainStake : Nat
deriving DecidableEq, Repr

/-- Modelled from the spec: `staking::StakingSummary` — per-domain,
per-epoch staking summary {current_epoch_index, current_total_stake,
current_operators}. -/
structure StakingSummary where
  currentEpochIndex : Nat
  currentTotalStake : Nat
  currentOperators : List (Nat × Nat)
deriving DecidableEq, Repr

/-- `DomainBundleLimit` (max bundle size and weight for a domain). -/
structure DomainBundleLimit where
  maxBundleSize : Nat
  maxBundleWeight : Nat
deriving DecidableEq, Repr

/-- Modelled from the spec: the fields of
`domain_registry::DomainConfig` read by `lib.rs`.  The spec says the
bundle limit is derived from `max_block_size`, `max_block_weight` and
`bundle_slot_probability`; the derivation lives in the external
`sp_domains` crate and is abstracted as a stored optional limit
(`none` makes `calculate_bundle_limit` fail). -/
structure DomainConfig where
  bundleSlotProbability : Nat × Nat
  targetBundlesPerBlock : Nat
  bundleLimit : Option DomainBundleLimit
deriving DecidableEq, Repr

/-- Modelled from the spec: `domain_registry::DomainObject` (only the
domain config is read by the embedded operations). -/
structure DomainObject where
  domainConfig : DomainConfig
deriving DecidableEq, Repr

/-- Modelled from the spec: `DomainConfig::calculate_bundle_limit`. -/
def calculate_bundle_limit (c : DomainConfig) : Option DomainBundleLimit :=
  c.bundleLimit

/-- Events deposited by the embedded operations (`Event` in `lib.rs`;
constructors not emitted by the embedded operations are omitted). -/
inductive Event where
  | BundleStored (domainId : Nat) (bundleHash : Nat) (bundleAuthor : Nat)
  | DomainEpochCompleted (domainId : Nat) (completedEpochIndex : Nat)
  | FraudProofProcessed (domainId : Nat) (newHeadReceiptNumber : Option Nat)
  | OperatorSlashed (operatorId : Nat) (reason : SlashedReason)
deriving DecidableEq, Repr

/-- The persistent storage of the pallet: one field per storage item of
`lib.rs` touched by the embedded operations. -/
structure State where
  /-- `SuccessfulBundles` (association list, drained by `on_initialize`). -/
  successfulBundles : List (Nat × List Nat)
  /-- `SuccessfulFraudProofs`. -/
  successfulFraudProofs : Nat → List Nat
  /-- `DomainStakingSummary`. -/
  domainStakingSummary : Nat → Option StakingSummary
  /-- `Operators`. -/
  operators : Nat → Option Operator
  /-- `DomainRegistry`. -/
  domainRegistry : Nat → Option DomainObject
  /-- `BlockTree`: (domain, domain block number) → receipt hash. -/
  blockTree : Nat → Nat → Option Nat
  /-- `BlockTreeNodes`: receipt hash → node. -/
  blockTreeNodes : Nat → Option BlockTreeNode
  /-- `HeadReceiptNumber`. -/
  headReceiptNumber : Nat → Nat
  /-- `HeadReceiptExtended`. -/
  headReceiptExtended : Nat → Bool
  /-- `ConsensusBlockHash`: (domain, consensus block number) → hash. -/
  consensusBlockHash : Nat → Nat → Option Nat
  /-- `ExecutionInbox`: (domain, domain block number, consensus block number). -/
  executionInbox : Nat → Nat → Nat → List BundleDigest
  /-- `InboxedBundleAuthor`: bundle header hash → author. -/
  inboxedBundleAuthor : Nat → Option Nat
  /-- `HeadDomainNumber`. -/
  headDomainNumber : Nat → Nat
  /-- `LastEpochStakingDistribution`. -/
  lastEpochStakingDistribution : Nat → Option ElectionVerificationParams
  /-- `LatestConfirmedDomainBlock`. -/
  latestConfirmedDomainBlock : Nat → Option ConfirmedDomainBlock
  /-- `LatestSubmittedER` (curried key `(domain, operator)`). -/
  latestSubmittedER : Nat → Nat → Nat

/-- The all-default storage (every `ValueQuery` at its default, every
`OptionQuery` absent). -/
def emptyState : State where
  successfulBundles := []
  successfulFraudProofs := fun _ => []
  domainStakingSummary := fun _ => none
  operators := fun _ => none
  domainRegistry := fun _ => none
  blockTree := fun _ _ => none
  blockTreeNodes := fun _ => none
  headReceiptNumber := fun _ => 0
  headReceiptExtended := fun _ => false
  consensusBlockHash := fun _ _ => none
  executionInbox := fun _ _ _ => []
  inboxedBundleAuthor := fun _ => none
  headDomainNumber := fun _ => 0
  lastEpochStakingDistribution := fun _ => none
  latestConfirmedDomainBlock := fun _ => none
  latestSubmittedER := fun _ _ => 0

/-- The pallet's configuration constants used by the embedded
operations. -/
structure Cfg where
  /-- `T::BlockTreePruningDepth`. -/
  blockTreePruningDepth : Nat
  /-- `T::StakeEpochDuration`. -/
  stakeEpochDuration : Nat
  /-- `T::BundleLongevity`. -/
  bundleLongevity : Nat

/-- The host environment visible to the pallet within one consensus
block: `frame_system` block data and the `BlockSlot` / proof-of-time
collaborators (specified only by interface in the spec). -/
structure Env where
  currentBlockNumber : Nat
  parentHash : Nat
  blockHash : Nat → Nat
  futureSlot : Nat → Option Nat
  slotProducedAfter : Nat → Option Nat
  isProofOfTimeValid : Nat → Nat → Nat → Bool → Bool

/-- Lookup in the `SuccessfulBundles` association list
(`SuccessfulBundles::<T>::get`, default `[]`). -/
def sbGet : List (Nat × List Nat) → Nat → List Nat
  | [], _ => []
  | (k, v) :: rest, d => if k = d then v else sbGet rest d

/-- Append one bundle hash for a domain
(`SuccessfulBundles::<T>::append`). -/
def sbAppend : List (Nat × List Nat) → Nat → Nat → List (Nat × List Nat)
  | [], d, h => [(d, [h])]
  | (k, v) :: rest, d, h =>
    if k = d then (k, v ++ [h]) :: rest else (k, v) :: sbAppend rest d h

/-! ### Simple getters from `lib.rs` -/

/-- Translated from `lib.rs` `latest_confirmed_domain_block_number`:
zero block is always a default confirmed block. -/
def latest_confirmed_domain_block_number (st : State) (domain_id : Nat) :
    Nat :=
  ((st.latestConfirmedDomainBlock domain_id).map (·.blockNumber)).getD 0

/-- Translated from `lib.rs` `is_bad_er_pending_to_prune`. -/
def is_bad_er_pending_to_prune (st : State) (domain_id : Nat)
    (receipt_number : Nat) : Bool :=
  if receipt_number = 0 then false
  else decide (st.headReceiptNumber domain_id < receipt_number)

/-- Translated from `lib.rs` `oldest_unconfirmed_receipt_number`. -/
def oldest_unconfirmed_receipt_number (st : State) (domain_id : Nat) :
    Option Nat :=
  let oldest_nonconfirmed_er_number := latest_confirmed_domain_block_number st domain_id + 1
  let is_er_exist := (st.blockTree domain_id oldest_nonconfirmed_er_number).isSome
  let is_pending_to_prune :=
    is_bad_er_pending_to_prune st domain_id oldest_nonconfirmed_er_number
  if is_er_exist && !is_pending_to_prune then some oldest_nonconfirmed_er_number
  else none

/-! ### Errors -/

/-- `block_tree::Error` (the variants surfaced through `lib.rs`). -/
inductive BlockTreeError where
  | InFutureReceipt
  | StaleReceipt
  | NewBranchReceipt
  | UnavailableConsensusBlockHash
  | BuiltOnUnknownConsensusBlock
  | UnknownParentBlockReceipt
  | MaxHeadDomainNumber
  | MissingDomainBlock
deriving DecidableEq, Repr

/-- `BundleError` in `lib.rs`. -/
inductive BundleError where
  | InvalidOperatorId
  | BadBundleSignature
  | BadVrfSignature
  | InvalidDomainId
  | BadOperator
  | ThresholdUnsatisfied
  | StaleBundle
  | Receipt (e : BlockTreeError)
  | BundleTooLarge
  | InvalidExtrinsicRoot
  | DuplicatedBundle
  | InvalidProofOfTime
  | SlotInTheFuture
  | SlotInThePast
  | UnableToCalculateBundleLimit
  | BundleTooHeavy
deriving DecidableEq, Repr

/-- `FraudProofError` in `lib.rs`. -/
inductive FraudProofError where
  | BadReceiptNotFound
  | ChallengingGenesisReceipt
  | DescendantsOfFraudulentERNotPruned
  | InvalidBlockFeesFraudProof
  | InvalidTransfersFraudProof
  | InvalidDomainBlockHashFraudProof
  | InvalidExtrinsicRootFraudProof
  | InvalidStateTransitionFraudProof
  | ParentReceiptNotFound
  | InvalidBundleFraudProof
  | BadValidBundleFraudProof
  | MissingOperator
  | UnexpectedFraudProof
  | BadBundleEquivocationFraudProof
  | BadReceiptAlreadyReported
deriving DecidableEq, Repr

/-- Modelled from the spec: `staking::Error` (only the variant the
embedded operations can produce). -/
inductive StakingError where
  | UnknownOperator
deriving DecidableEq, Repr

/-- Modelled from the spec: `staking_epoch::Error` (only the variant the
embedded operations can produce). -/
inductive StakingEpochError where
  | DomainNotInitialized
deriving DecidableEq, Repr

/-- The outer error union `Error<T>` in `lib.rs` (subsystems that the
embedded operations can reach). -/
inductive PalletError where
  | FraudProof (e : FraudProofError)
  | Staking (e : StakingError)
  | StakingEpoch (e : StakingEpochError)
  | BlockTree (e : BlockTreeError)
deriving DecidableEq, Repr

/-! ### Fraud proofs -/

/-- `sp_domains_fraud_proof::fraud_proof::FraudProof`.  Each
receipt-targeting variant carries the domain id, the hash of the
targeted bad receipt and the outcome of its variant-specific
cryptographic verification (the verifier itself lives in the external
`sp_domains_fraud_proof` crate and is abstracted as a boolean field).
The equivocation variant targets an operator and a slot. -/
inductive FraudProof where
  | InvalidBlockFees (domainId : Nat) (badReceiptHash : Nat) (valid : Bool)
  | InvalidTransfers (domainId : Nat) (badReceiptHash : Nat) (valid : Bool)
  | InvalidDomainBlockHash (domainId : Nat) (badReceiptHash : Nat) (valid : Bool)
  | InvalidExtrinsicsRoot (domainId : Nat) (badReceiptHash : Nat) (valid : Bool)
  | InvalidStateTransition (domainId : Nat) (badReceiptHash : Nat) (valid : Bool)
  | InvalidBundles (domainId : Nat) (badReceiptHash : Nat) (valid : Bool)
  | ValidBundle (domainId : Nat) (badReceiptHash : Nat) (valid : Bool)
  | BundleEquivocation (domainId : Nat) (operatorId : Nat) (slot : Nat)
      (valid : Bool)
deriving DecidableEq, Repr

/-- `FraudProof::domain_id`. -/
def FraudProof.domainId : FraudProof → Nat
  | .InvalidBlockFees d _ _ => d
  | .InvalidTransfers d _ _ => d
  | .InvalidDomainBlockHash d _ _ => d
  | .InvalidExtrinsicsRoot d _ _ => d
  | .InvalidStateTransition d _ _ => d
  | .InvalidBundles d _ _ => d
  | .ValidBundle d _ _ => d
  | .BundleEquivocation d _ _ _ => d

/-- `FraudProof::targeted_bad_receipt_hash`. -/
def FraudProof.targetedBadReceiptHash : FraudProof → Option Nat
  | .InvalidBlockFees _ h _ => some h
  | .InvalidTransfers _ h _ => some h
  | .InvalidDomainBlockHash _ h _ => some h
  | .InvalidExtrinsicsRoot _ h _ => some h
  | .InvalidStateTransition _ h _ => some h
  | .InvalidBundles _ h _ => some h
  | .ValidBundle _ h _ => some h
  | .BundleEquivocation _ _ _ _ => none

/-- `FraudProof::targeted_bad_operator_and_slot_for_bundle_equivocation`. -/
def FraudProof.targetedBadOperatorAndSlot : FraudProof → Option (Nat × Nat)
  | .BundleEquivocation _ op slot _ => some (op, slot)
  | _ => none

/-- `FraudProof::hash`, modelled as an injective encoding of the
variant tag and its fields. -/
def FraudProof.fpHash : FraudProof → Nat
  | .InvalidBlockFees d h v => Nat.pair 0 (Nat.pair d (Nat.pair h (cond v 1 0)))
  | .InvalidTransfers d h v => Nat.pair 1 (Nat.pair d (Nat.pair h (cond v 1 0)))
  | .InvalidDomainBlockHash d h v => Nat.pair 2 (Nat.pair d (Nat.pair h (cond v 1 0)))
  | .InvalidExtrinsicsRoot d h v => Nat.pair 3 (Nat.pair d (Nat.pair h (cond v 1 0)))
  | .InvalidStateTransition d h v => Nat.pair 4 (Nat.pair d (Nat.pair h (cond v 1 0)))
  | .InvalidBundles d h v => Nat.pair 5 (Nat.pair d (Nat.pair h (cond v 1 0)))
  | .ValidBundle d h v => Nat.pair 6 (Nat.pair d (Nat.pair h (cond v 1 0)))
  | .BundleEquivocation d op slot v =>
    Nat.pair 7 (Nat.pair d (Nat.pair op (Nat.pair slot (cond v 1 0))))

/-- The mempool tag of a fraud proof (`FraudProofTag` in `lib.rs`). -/
inductive FraudProofTag where
  | BadER (domainId : Nat)
  | BundleEquivocation (operatorId : Nat)
deriving DecidableEq, Repr

/-- The variant-specific verification step of `validate_fraud_proof`
(the `match fraud_proof { ... }` over the receipt-targeting variants):
for `InvalidDomainBlockHash`, `InvalidStateTransition` and
`InvalidBundles` the parent receipt is looked up first
(`ParentReceiptNotFound`), then the external verifier decides; each
variant maps a failed verification to its dedicated error. -/
def verifyFraudProofVariant (st : State) (bad_receipt : ExecutionReceipt) :
    FraudProof → Except FraudProofError Unit
  | .InvalidBlockFees _ _ valid =>
    if valid then .ok () else .error .InvalidBlockFeesFraudProof
  | .InvalidTransfers _ _ valid =>
    if valid then .ok () else .error .InvalidTransfersFraudProof
  | .InvalidDomainBlockHash _ _ valid =>
    match st.blockTreeNodes bad_receipt.parentDomainBlockReceiptHash with
    | none => .error .ParentReceiptNotFound
    | some _ => if valid then .ok () else .error .InvalidDomainBlockHashFraudProof
  | .InvalidExtrinsicsRoot _ _ valid =>
    if valid then .ok () else .error .InvalidExtrinsicRootFraudProof
  | .InvalidStateTransition _ _ valid =>
    match st.blockTreeNodes bad_receipt.parentDomainBlockReceiptHash with
    | none => .error .ParentReceiptNotFound
    | some _ => if valid then .ok () else .error .InvalidStateTransitionFraudProof
  | .InvalidBundles _ _ valid =>
    match st.blockTreeNodes bad_receipt.parentDomainBlockReceiptHash with
    | none => .error .ParentReceiptNotFound
    | some _ => if valid then .ok () else .error .InvalidBundleFraudProof
  | .ValidBundle _ _ valid =>
    if valid then .ok () else .error .BadValidBundleFraudProof
  | .BundleEquivocation _ _ _ _ => .error .UnexpectedFraudProof

/-- Translated from `lib.rs` `validate_fraud_proof`: the mempool-side
validation of a fraud proof, returning its tag and priority. -/
def validate_fraud_proof (cfg : Cfg) (st : State) (fraud_proof : FraudProof) :
    Except FraudProofError (FraudProofTag × Nat) :=
  match fraud_proof.targetedBadReceiptHash with
  | some bad_receipt_hash =>
    match st.blockTreeNodes bad_receipt_hash with
    | none => .error .BadReceiptNotFound
    | some node =>
      let bad_receipt := node.executionReceipt
      let domain_block_number := bad_receipt.domainBlockNumber
      if domain_block_number = 0 then .error .ChallengingGenesisReceipt
      else if is_bad_er_pending_to_prune st fraud_proof.domainId
          bad_receipt.domainBlockNumber then .error .BadReceiptAlreadyReported
      else
        match verifyFraudProofVariant st bad_receipt fraud_proof with
        | .error e => .error e
        | .ok () =>
          let block_before_bad_er_confirm :=
            domain_block_number -
              latest_confirmed_domain_block_number st fraud_proof.domainId
          let priority := U64_MAX - block_before_bad_er_confirm
          let tag := FraudProofTag.BadER fraud_proof.domainId
          .ok (tag, priority)
  | none =>
    match fraud_proof.targetedBadOperatorAndSlot with
    | some (bad_operator_id, _) =>
      match st.operators bad_operator_id with
      | none => .error .MissingOperator
      | some _operator =>
        match fraud_proof with
        | .BundleEquivocation _ _ _ valid =>
          if valid then
            let priority := U64_MAX - cfg.blockTreePruningDepth - 1
            let tag := FraudProofTag.BundleEquivocation bad_operator_id
            .ok (tag, priority)
          else .error .BadBundleEquivocationFraudProof
        | _ => .error .UnexpectedFraudProof
    | none => .error .UnexpectedFraudProof

/-! ### Pruning and slashing (modelled collaborators) -/

/-- Modelled from the spec: `block_tree::prune_receipt` — missing from
`src/`; per the spec, `prune(domain, bn)` removes the block-tree node at
`(domain, bn)` and returns it (absent entry returns `none`); a tree
entry whose node record is missing is an internal inconsistency and an
error. -/
def prune_receipt (st : State) (domain_id : Nat) (receipt_number : Nat) :
    Except BlockTreeError (Option BlockTreeNode × State) :=
  match st.blockTree domain_id receipt_number with
  | none => .ok (none, st)
  | some receipt_hash =>
    match st.blockTreeNodes receipt_hash with
    | none => .error .MissingDomainBlock
    | some node =>
      .ok (some node,
        { st with
          blockTree := setF2 st.blockTree domain_id receipt_number none
          blockTreeNodes := setF st.blockTreeNodes receipt_hash none })

/-- Modelled from the spec: `staking::do_slash_operators` — missing from
`src/`; per the spec it slashes every listed operator with the given
reason: the operator's status becomes `PendingSlash` and an
`OperatorSlashed` event carrying the reason is emitted; an unknown
operator id is an error. -/
def do_slash_operators (st : State) (operator_ids : List Nat)
    (reason : SlashedReason) : Except StakingError (State × List Event) :=
  match operator_ids with
  | [] => .ok (st, [])
  | op :: rest =>
    match st.operators op with
    | none => .error .UnknownOperator
    | some o =>
      let st1 :=
        { st with operators := setF st.operators op (some { o with status := .PendingSlash }) }
      match do_slash_operators st1 rest reason with
      | .error e => .error e
      | .ok (st2, ev) => .ok (st2, .OperatorSlashed op reason :: ev)

/-- Translated from `lib.rs` `submit_fraud_proof` (call index 1): the
dispatch of a fraud proof.  Returns the post-state and the deposited
events. -/
def submit_fraud_proof (st : State) (fraud_proof : FraudProof) :
    Except PalletError (State × List Event) :=
  let domain_id := fraud_proof.domainId
  match fraud_proof.targetedBadReceiptHash with
  | some bad_receipt_hash =>
    let head_receipt_number := st.headReceiptNumber domain_id
    match st.blockTreeNodes bad_receipt_hash with
    | none => .error (.FraudProof .BadReceiptNotFound)
    | some node =>
      let bad_receipt_number := node.executionReceipt.domainBlockNumber
      if head_receipt_number < bad_receipt_number then
        .error (.FraudProof .BadReceiptNotFound)
      else
        match prune_receipt st domain_id bad_receipt_number with
        | .error e => .error (.BlockTree e)
        | .ok (none, _) => .error (.FraudProof .BadReceiptNotFound)
        | .ok (some block_tree_node, st1) =>
          match do_slash_operators st1 block_tree_node.operatorIds
              (.BadExecutionReceipt bad_receipt_hash) with
          | .error e => .error (.Staking e)
          | .ok (st2, ev) =>
            let new_head_receipt_number := bad_receipt_number - 1
            let st3 :=
              { st2 with
                headReceiptNumber :=
                  setF st2.headReceiptNumber domain_id new_head_receipt_number }
            let st4 :=
              { st3 with
                successfulFraudProofs :=
                  setF st3.successfulFraudProofs domain_id
                    (st3.successfulFraudProofs domain_id ++ [fraud_proof.fpHash]) }
            .ok (st4,
              ev ++ [.FraudProofProcessed domain_id (some new_head_receipt_number)])
  | none =>
    match fraud_proof.targetedBadOperatorAndSlot with
    | some (targeted_bad_operator, slot) =>
      match do_slash_operators st [targeted_bad_operator] (.BundleEquivocation slot) with
      | .error e => .error (.Staking e)
      | .ok (st1, ev) =>
        let st2 :=
          { st1 with
            successfulFraudProofs :=
              setF st1.successfulFraudProofs domain_id
                (st1.successfulFraudProofs domain_id ++ [fraud_proof.fpHash]) }
        .ok (st2, .FraudProofProcessed domain_id none :: ev)
    | none =>
      .ok ({ st with
        successfulFraudProofs :=
          setF st.successfulFraudProofs domain_id
            (st.successfulFraudProofs domain_id ++ [fraud_proof.fpHash]) }, [])

/-! ### Bundles -/

/-- Modelled from the spec: the proof of election carried by a bundle
header.  The VRF signature and output are external cryptography
(`sp_domains::bundle_producer_election`); the signature's validity under
a given key is abstracted by the `vrfSigner` / `vrfValid` fields. -/
structure ProofOfElection where
  slotNumber : Nat
  proofOfTime : Nat
  vrfSigner : Nat
  vrfValid : Bool
  vrfOutput : Nat
deriving DecidableEq, Repr

/-- The bundle header (`sp_domains::BundleHeader`): the fields read by
the embedded operations. -/
structure BundleHeader where
  domainId : Nat
  operatorId : Nat
  proofOfElection : ProofOfElection
  receipt : ExecutionReceipt
  extrinsicsRoot : Nat
  estimatedWeight : Nat
deriving DecidableEq, Repr

/-- An idealised signature: it validates under key `signer` on message
`msg`; the `nonce` field lets the same key produce distinct valid
signatures over the same message (re-signing). -/
structure Signature where
  signer : Nat
  msg : Nat
  nonce : Nat
deriving DecidableEq, Repr

/-- Signature verification (`OperatorPublicKey::verify`), idealised: a
signature is valid for a key and message iff it was produced by that
key over that message, regardless of its nonce. -/
def sigVerify (key msg : Nat) (sig : Signature) : Bool :=
  sig.signer == key && sig.msg == msg

/-- The pre-image hash of a bundle header
(`SealedBundleHeader::pre_hash`): a structural hash over the header
fields, excluding the signature. -/
def BundleHeader.preHash (h : BundleHeader) : Nat :=
  Nat.pair h.domainId
    (Nat.pair h.operatorId
      (Nat.pair h.proofOfElection.slotNumber
        (Nat.pair h.extrinsicsRoot (Nat.pair h.estimatedWeight (erHash h.receipt)))))

/-- `sp_domains::SealedBundleHeader`. -/
structure SealedBundleHeader where
  header : BundleHeader
  signature : Signature
deriving DecidableEq, Repr

/-- `SealedBundleHeader::pre_hash`: the hash of the header excluding the
signature. -/
def SealedBundleHeader.preHash (s : SealedBundleHeader) : Nat :=
  s.header.preHash

/-- `sp_domains::OpaqueBundle`: sealed header plus the (encoded)
extrinsics; `bodySize` and `size` abstract the encoded byte sizes
(`body_size()` / `size()`). -/
structure OpaqueBundle where
  sealedHeader : SealedBundleHeader
  extrinsics : List Nat
  bodySize : Nat
  size : Nat
deriving DecidableEq, Repr

/-- `OpaqueBundle::domain_id`. -/
def OpaqueBundle.domainId (b : OpaqueBundle) : Nat := b.sealedHeader.header.domainId

/-- `OpaqueBundle::operator_id`. -/
def OpaqueBundle.operatorId (b : OpaqueBundle) : Nat :=
  b.sealedHeader.header.operatorId

/-- `OpaqueBundle::extrinsics_root`. -/
def OpaqueBundle.extrinsicsRoot (b : OpaqueBundle) : Nat :=
  b.sealedHeader.header.extrinsicsRoot

/-- `OpaqueBundle::into_receipt`. -/
def OpaqueBundle.intoReceipt (b : OpaqueBundle) : ExecutionReceipt :=
  b.sealedHeader.header.receipt

/-- `OpaqueBundle::estimated_weight`. -/
def OpaqueBundle.estimatedWeight (b : OpaqueBundle) : Nat :=
  b.sealedHeader.header.estimatedWeight

/-- `OpaqueBundle::hash`: hash of the whole bundle, signature included. -/
def OpaqueBundle.bundleHash (b : OpaqueBundle) : Nat :=
  Nat.pair b.sealedHeader.preHash
    (Nat.pair b.sealedHeader.signature.signer
      (Nat.pair b.sealedHeader.signature.msg b.sealedHeader.signature.nonce))

/-- The ordered trie root of the encoded extrinsics
(`ordered_trie_root` with state version 1), modelled as an injective
fold of the list. -/
def orderedTrieRoot (extrinsics : List Nat) : Nat := encodeList extrinsics

/-! ### Receipt classification and processing -/

/-- `block_tree::AcceptedReceiptType`. -/
inductive AcceptedReceiptType where
  | NewHead
  | CurrentHead
deriving DecidableEq, Repr

/-- `block_tree::ReceiptType`: accepted receipts carry their accepted
kind, rejected receipts carry the block-tree error that classifies
them. -/
inductive ReceiptType where
  | Accepted (t : AcceptedReceiptType)
  | Rejected (e : BlockTreeError)
deriving DecidableEq, Repr

/-- Modelled from the spec: `block_tree::execution_receipt_type` —
missing from `src/`; the spec's classification of a receipt relative to
the current head: Stale (number at or below the latest confirmed
block), InFuture (beyond head + 1, no jumps), NewHead (extends the
current head, consensus-hash snapshot must match), CurrentHead (equals
the existing node at its height, a confirmation vote), NewBranchReceipt
(same height, different hash). -/
def execution_receipt_type (st : State) (domain_id : Nat) (er : ExecutionReceipt) :
    ReceiptType :=
  let head_receipt_number := st.headReceiptNumber domain_id
  let next_receipt_number := head_receipt_number + 1
  let latest_confirmed := latest_confirmed_domain_block_number st domain_id
  let receipt_number := er.domainBlockNumber
  if receipt_number ≤ latest_confirmed then .Rejected .StaleReceipt
  else if next_receipt_number < receipt_number then .Rejected .InFutureReceipt
  else if receipt_number = next_receipt_number then
    match st.blockTree domain_id head_receipt_number with
    | none => .Rejected .UnknownParentBlockReceipt
    | some parent_hash =>
      if er.parentDomainBlockReceiptHash ≠ parent_hash then
        .Rejected .UnknownParentBlockReceipt
      else
        match st.consensusBlockHash domain_id er.consensusBlockNumber with
        | none => .Rejected .UnavailableConsensusBlockHash
        | some h =>
          if h = er.consensusBlockHash then .Accepted .NewHead
          else .Rejected .BuiltOnUnknownConsensusBlock
  else
    match st.blockTree domain_id receipt_number with
    | none => .Rejected .UnknownParentBlockReceipt
    | some h =>
      if h = erHash er then .Accepted .CurrentHead else .Rejected .NewBranchReceipt

/-- Modelled from the spec: `block_tree::verify_execution_receipt` —
the receipt embedded in a bundle is classified and any rejection code is
surfaced. -/
def verify_execution_receipt (st : State) (domain_id : Nat)
    (er : ExecutionReceipt) : Except BlockTreeError Unit :=
  match execution_receipt_type st domain_id er with
  | .Rejected e => .error e
  | .Accepted _ => .ok ()

/-- The confirmed-block information returned by receipt processing
(`ConfirmedDomainBlockInfo`); the reward / storage-fee fields, which
feed the staking ledger only, are omitted. -/
structure ConfirmedInfo where
  domainBlockNumber : Nat
  operatorIds : List Nat
  invalidBundleAuthors : List Nat
deriving DecidableEq, Repr

/-- Modelled from the spec: `block_tree::process_execution_receipt` —
missing from `src/`.  `CurrentHead` adds the submitting operator as a
vote on the existing node.  `NewHead` inserts the node, raises
`HeadReceiptNumber`, marks `HeadReceiptExtended` and advances the
confirmation window: the node whose number equals the new head minus
the pruning depth (if it exists) is removed from the tree, recorded in
`LatestConfirmedDomainBlock`, and its consensus-block-hash snapshot and
execution-inbox rows are deleted.  Both kinds record the receipt number
in `LatestSubmittedER`. -/
def process_execution_receipt (cfg : Cfg) (st : State) (domain_id operator_id : Nat)
    (er : ExecutionReceipt) (t : AcceptedReceiptType) :
    Except BlockTreeError (State × Option ConfirmedInfo) :=
  match t with
  | .CurrentHead =>
    let st1 :=
      match st.blockTree domain_id er.domainBlockNumber with
      | some h =>
        match st.blockTreeNodes h with
        | some node =>
          { st with
            blockTreeNodes :=
              setF st.blockTreeNodes h
                (some { node with operatorIds := node.operatorIds ++ [operator_id] }) }
        | none => st
      | none => st
    .ok ({ st1 with
      latestSubmittedER :=
        setF2 st1.latestSubmittedER domain_id operator_id
          (max (st1.latestSubmittedER domain_id operator_id) er.domainBlockNumber) }, none)
  | .NewHead =>
    let bn := er.domainBlockNumber
    let h := erHash er
    let stIns : State :=
      { st with
        blockTree := setF2 st.blockTree domain_id bn (some h)
        blockTreeNodes := setF st.blockTreeNodes h (some ⟨er, [operator_id]⟩)
        headReceiptNumber := setF st.headReceiptNumber domain_id bn
        headReceiptExtended := setF st.headReceiptExtended domain_id true
        latestSubmittedER :=
          setF2 st.latestSubmittedER domain_id operator_id
            (max (st.latestSubmittedER domain_id operator_id) bn) }
    if cfg.blockTreePruningDepth ≤ bn then
      let to_confirm := bn - cfg.blockTreePruningDepth
      match prune_receipt stIns domain_id to_confirm with
      | .error e => .error e
      | .ok (some confirmed_node, stP) =>
        let cer := confirmed_node.executionReceipt
        .ok ({ stP with
            latestConfirmedDomainBlock :=
              setF stP.latestConfirmedDomainBlock domain_id
                (some ⟨to_confirm, cer.domainBlockHash⟩)
            consensusBlockHash :=
              setF2 stP.consensusBlockHash domain_id cer.consensusBlockNumber none
            executionInbox := fun d' bn' cbn' =>
              if d' = domain_id ∧ bn' = to_confirm then []
              else stP.executionInbox d' bn' cbn' },
          some ⟨to_confirm, confirmed_node.operatorIds, cer.invalidBundleAuthors⟩)
      | .ok (none, stP) => .ok (stP, none)
    else .ok (stIns, none)

/-! ### Staking collaborators of `submit_bundle` (modelled) -/

/-- Modelled from the spec: `bundle_storage_fund::refund_storage_fee` —
distributes the paid storage fees back to the operator pools; it only
moves currency balances, which are outside the modelled state, so it is
a successful identity here. -/
def refund_storage_fee (st : State) : Except PalletError State := .ok st

/-- Modelled from the spec: `staking::do_reward_operators` — accrues the
confirmed block's rewards to the staking ledger; the reward ledger is
outside the modelled state, so it is a successful identity here. -/
def do_reward_operators (st : State) (_domain_id : Nat)
    (_operator_ids : List Nat) : Except PalletError State := .ok st

/-- Modelled from the spec: `staking_epoch::do_finalize_domain_current_epoch`
— missing from `src/`; per the spec it archives the pre-transition
stake distribution in `LastEpochStakingDistribution`, rotates the
epoch index and returns the completed epoch index. -/
def do_finalize_domain_current_epoch (st : State) (domain_id : Nat) :
    Except StakingEpochError (State × Nat) :=
  match st.domainStakingSummary domain_id with
  | none => .error .DomainNotInitialized
  | some summary =>
    .ok ({ st with
      lastEpochStakingDistribution :=
        setF st.lastEpochStakingDistribution domain_id
          (some ⟨summary.currentOperators, summary.currentTotalStake⟩)
      domainStakingSummary :=
        setF st.domainStakingSummary domain_id
          (some { summary with currentEpochIndex := summary.currentEpochIndex + 1 }) },
      summary.currentEpochIndex)

/-! ### `submit_bundle` -/

/-- The pre-prune phase of `submit_bundle` (`lib.rs` lines 936–961):
before adding a new head receipt, prune any previous bad receipt at the
same height and slash its submitters with reason
`BadExecutionReceipt` of that node's receipt hash. -/
def bundlePrunePhase (st : State) (domain_id : Nat) (er : ExecutionReceipt)
    (t : AcceptedReceiptType) : Except PalletError (State × List Event) :=
  match t with
  | .NewHead =>
    match prune_receipt st domain_id er.domainBlockNumber with
    | .error e => .error (.BlockTree e)
    | .ok (some block_tree_node, st1) =>
      match do_slash_operators st1 block_tree_node.operatorIds
          (.BadExecutionReceipt (erHash block_tree_node.executionReceipt)) with
      | .error e => .error (.Staking e)
      | .ok (st2, ev) => .ok (st2, ev)
    | .ok (none, st1) => .ok (st1, [])
  | .CurrentHead => .ok (st, [])

/-- The post-confirmation phase of `submit_bundle` (`lib.rs` lines
977–1020): refund storage fees, reward the confirmed block's operators,
slash the invalid-bundle authors, and run the epoch transition when the
confirmed number is divisible by `StakeEpochDuration`. -/
def bundleConfirmPhase (cfg : Cfg) (st : State) (domain_id : Nat)
    (confirmed_block_info : ConfirmedInfo) : Except PalletError (State × List Event) :=
  match refund_storage_fee st with
  | .error e => .error e
  | .ok st4 =>
    match do_reward_operators st4 domain_id confirmed_block_info.operatorIds with
    | .error e => .error e
    | .ok st5 =>
      match do_slash_operators st5 confirmed_block_info.invalidBundleAuthors
          (.InvalidBundle confirmed_block_info.domainBlockNumber) with
      | .error e => .error (.Staking e)
      | .ok (st6, ev2) =>
        if confirmed_block_info.domainBlockNumber % cfg.stakeEpochDuration = 0 then
          match do_finalize_domain_current_epoch st6 domain_id with
          | .error e => .error (.StakingEpoch e)
          | .ok (st7, completed_epoch_index) =>
            .ok (st7, ev2 ++ [.DomainEpochCompleted domain_id completed_epoch_index])
        else .ok (st6, ev2)

/-- The receipt-handling phase of `submit_bundle` (`lib.rs` lines
930–1022): the pre-prune phase, then receipt processing, then — when a
domain block got confirmed — the post-confirmation phase. -/
def handleReceipt (cfg : Cfg) (st : State) (domain_id operator_id : Nat)
    (er : ExecutionReceipt) (t : AcceptedReceiptType) :
    Except PalletError (State × List Event) :=
  match bundlePrunePhase st domain_id er t with
  | .error e => .error e
  | .ok (st2, ev1) =>
    match process_execution_receipt cfg st2 domain_id operator_id er t with
    | .error e => .error (.BlockTree e)
    | .ok (st3, none) => .ok (st3, ev1)
    | .ok (st3, some confirmed_block_info) =>
      match bundleConfirmPhase cfg st3 domain_id confirmed_block_info with
      | .error e => .error e
      | .ok (st7, ev2) => .ok (st7, ev1 ++ ev2)

/-- Append a digest to the execution inbox
(`ExecutionInbox::<T>::append`). -/
def inboxAppend (f : Nat → Nat → Nat → List BundleDigest)
    (d bn cbn : Nat) (digest : BundleDigest) :
    Nat → Nat → Nat → List BundleDigest :=
  fun x y z => if x = d ∧ y = bn ∧ z = cbn then f x y z ++ [digest] else f x y z

/-- The common tail of `submit_bundle` (`lib.rs` lines 1024–1054):
raise `HeadDomainNumber` on the first accepted bundle of the domain in
this consensus block (`SuccessfulBundles` empty), append the bundle's
digest to the execution inbox of the currently building domain block,
record the bundle author and the bundle hash, and deposit
`BundleStored`.  (`checked_add` on the head domain number cannot
overflow in the `Nat` model.) -/
def bundleTail (env : Env) (st : State) (b : OpaqueBundle) : State × List Event :=
  let domain_id := b.domainId
  let st1 :=
    if sbGet st.successfulBundles domain_id = [] then
      { st with
        headDomainNumber :=
          setF st.headDomainNumber domain_id (st.headDomainNumber domain_id + 1) }
    else st
  let head_domain_number := st1.headDomainNumber domain_id
  let consensus_block_number := env.currentBlockNumber
  let st2 :=
    { st1 with
      executionInbox :=
        inboxAppend st1.executionInbox domain_id head_domain_number consensus_block_number
          ⟨b.sealedHeader.preHash, b.extrinsicsRoot, b.size⟩ }
  let st3 :=
    { st2 with
      inboxedBundleAuthor :=
        setF st2.inboxedBundleAuthor b.sealedHeader.preHash (some b.operatorId) }
  let st4 := { st3 with successfulBundles := sbAppend st3.successfulBundles domain_id b.bundleHash }
  (st4, [.BundleStored domain_id b.bundleHash b.operatorId])

/-- Translated from `lib.rs` `submit_bundle` (call index 0): classify
the embedded receipt (rejections abort the dispatch), handle it, then
run the common tail. -/
def submit_bundle (cfg : Cfg) (env : Env) (st : State) (opaque_bundle : OpaqueBundle) :
    Except PalletError (State × List Event) :=
  match execution_receipt_type st opaque_bundle.domainId opaque_bundle.intoReceipt with
  | .Rejected e => .error (.BlockTree e)
  | .Accepted t =>
    match handleReceipt cfg st opaque_bundle.domainId opaque_bundle.operatorId
        opaque_bundle.intoReceipt t with
    | .error e => .error e
    | .ok (st1, ev1) =>
      let r := bundleTail env st1 opaque_bundle
      .ok (r.1, ev1 ++ r.2)

/-! ### Bundle validation -/

/-- Translated from `lib.rs` `check_bundle_duplication`: the hash used
is the pre-image hash, which does not include the signature, so a
re-signed existing bundle cannot pass the check. -/
def check_bundle_duplication (st : State) (opaque_bundle : OpaqueBundle) :
    Except BundleError Unit :=
  let bundle_header_hash := opaque_bundle.sealedHeader.preHash
  if (st.inboxedBundleAuthor bundle_header_hash).isSome then .error .DuplicatedBundle
  else .ok ()

/-- Translated from `lib.rs` `check_extrinsics_root`. -/
def check_extrinsics_root (opaque_bundle : OpaqueBundle) : Except BundleError Unit :=
  let expected_extrinsics_root := orderedTrieRoot opaque_bundle.extrinsics
  if expected_extrinsics_root = opaque_bundle.extrinsicsRoot then .ok ()
  else .error .InvalidExtrinsicRoot

/-- Translated from `lib.rs` `check_slot_and_proof_of_time`: slot
freshness against the `BlockSlot` collaborator and proof-of-time
verification (quick verification in the mempool, full verification at
pre-dispatch). -/
def check_slot_and_proof_of_time (cfg : Cfg) (env : Env) (slot_number : Nat)
    (proof_of_time : Nat) (pre_dispatch : Bool) : Except BundleError Unit :=
  let current_block_number := env.currentBlockNumber
  let future_check : Except BundleError Unit :=
    if pre_dispatch then
      match env.futureSlot current_block_number with
      | some future_slot =>
        if future_slot < slot_number then .error .SlotInTheFuture else .ok ()
      | none => .ok ()
    else .ok ()
  match future_check with
  | .error e => .error e
  | .ok () =>
    let produced : Except BundleError Nat :=
      match env.slotProducedAfter slot_number with
      | some n => .ok n
      | none =>
        if cfg.bundleLongevity < current_block_number then .error .SlotInThePast
        else .ok 0
    match produced with
    | .error e => .error e
    | .ok produced_after_block_number =>
      let produced_after_block_hash :=
        if produced_after_block_number = current_block_number then env.parentHash
        else env.blockHash produced_after_block_number
      let eligible_check : Except BundleError Unit :=
        if cfg.bundleLongevity ≤ current_block_number then
          if produced_after_block_number < current_block_number - cfg.bundleLongevity then
            .error .SlotInThePast
          else .ok ()
        else .ok ()
      match eligible_check with
      | .error e => .error e
      | .ok () =>
        if env.isProofOfTimeValid produced_after_block_hash slot_number proof_of_time
            (!pre_dispatch) then .ok ()
        else .error .InvalidProofOfTime

/-- `bundle_producer_election::ProofOfElectionError`. -/
inductive ProofOfElectionError where
  | BadVrfProof
  | ThresholdUnsatisfied
deriving DecidableEq, Repr

/-- The `From<ProofOfElectionError> for BundleError` conversion in
`lib.rs`. -/
def ofProofOfElectionError : ProofOfElectionError → BundleError
  | .BadVrfProof => .BadVrfSignature
  | .ThresholdUnsatisfied => .ThresholdUnsatisfied

/-- Modelled from the spec:
`sp_domains::bundle_producer_election::check_proof_of_election` — the
VRF proof must verify under the operator's signing key, and the
threshold condition `vrf_output * total_domain_stake <
operator_stake * threshold_numerator` must hold, where the threshold
comes from the configured `bundle_slot_probability`. -/
def check_proof_of_election (operator_signing_key : Nat)
    (bundle_slot_probability : Nat × Nat) (proof_of_election : ProofOfElection)
    (operator_stake total_domain_stake : Nat) : Except ProofOfElectionError Unit :=
  if ¬(proof_of_election.vrfSigner = operator_signing_key ∧ proof_of_election.vrfValid) then
    .error .BadVrfProof
  else if ¬(proof_of_election.vrfOutput * total_domain_stake <
      operator_stake * bundle_slot_probability.1) then
    .error .ThresholdUnsatisfied
  else .ok ()

/-- The fallback path of `fetch_operator_stake_info` reading
`DomainStakingSummary` when `LastEpochStakingDistribution` does not
apply. -/
def fetch_operator_stake_info_from_summary (st : State) (domain_id : Nat)
    (operator_id : Nat) : Except BundleError (Nat × Nat) :=
  match st.domainStakingSummary domain_id with
  | none => .error .InvalidDomainId
  | some domain_stake_summary =>
    match domain_stake_summary.currentOperators.lookup operator_id with
    | none => .error .BadOperator
    | some operator_stake => .ok (operator_stake, domain_stake_summary.currentTotalStake)

/-- Translated from `lib.rs` `fetch_operator_stake_info`: if there was
an epoch transition in this block, the parameters of the previous epoch
stored in `LastEpochStakingDistribution` are used; otherwise the
domain's current staking summary. -/
def fetch_operator_stake_info (st : State) (domain_id : Nat)
    (operator_id : Nat) : Except BundleError (Nat × Nat) :=
  match st.lastEpochStakingDistribution domain_id with
  | some pending_election_params =>
    match pending_election_params.operators.lookup operator_id with
    | some operator_stake => .ok (operator_stake, pending_election_params.totalDomainStake)
    | none => fetch_operator_stake_info_from_summary st domain_id operator_id
  | none => fetch_operator_stake_info_from_summary st domain_id operator_id

/-- Translated from `lib.rs` `validate_bundle`: the ordered stateless
and stateful checks on an incoming bundle. -/
def validate_bundle (cfg : Cfg) (env : Env) (st : State) (opaque_bundle : OpaqueBundle)
    (pre_dispatch : Bool) : Except BundleError Unit :=
  let domain_id := opaque_bundle.domainId
  let operator_id := opaque_bundle.operatorId
  let sealed_header := opaque_bundle.sealedHeader
  match st.operators operator_id with
  | none => .error .InvalidOperatorId
  | some operator =>
    if operator.status = .Slashed ∨ operator.status = .PendingSlash then .error .BadOperator
    else if ¬ sigVerify operator.signingKey sealed_header.preHash sealed_header.signature then
      .error .BadBundleSignature
    else
      match check_bundle_duplication st opaque_bundle with
      | .error e => .error e
      | .ok () =>
        match st.domainRegistry domain_id with
        | none => .error .InvalidDomainId
        | some domain_object =>
          let domain_config := domain_object.domainConfig
          match calculate_bundle_limit domain_config with
          | none => .error .UnableToCalculateBundleLimit
          | some domain_bundle_limit =>
            if domain_bundle_limit.maxBundleSize < opaque_bundle.bodySize then
              .error .BundleTooLarge
            else if domain_bundle_limit.maxBundleWeight < opaque_bundle.estimatedWeight then
              .error .BundleTooHeavy
            else
              match check_extrinsics_root opaque_bundle with
              | .error e => .error e
              | .ok () =>
                let proof_of_election := sealed_header.header.proofOfElection
                match fetch_operator_stake_info st domain_id operator_id with
                | .error e => .error e
                | .ok (operator_stake, total_domain_stake) =>
                  match check_slot_and_proof_of_time cfg env
                    proof_of_election.slotNumber proof_of_election.proofOfTime
                    pre_dispatch with
                  | .error e => .error e
                  | .ok () =>
                    match check_proof_of_election operator.signingKey
                        domain_config.bundleSlotProbability proof_of_election
                        operator_stake total_domain_stake with
                    | .error e => .error (ofProofOfElectionError e)
                    | .ok () =>
                      match verify_execution_receipt st domain_id
                          sealed_header.header.receipt with
                      | .error e => .error (.Receipt e)
                      | .ok () => .ok ()

/-! ### Block-boundary hooks -/

/-- Archive the parent consensus block hash for every domain that
produced a bundle in the parent consensus block (the
`SuccessfulBundles::drain()` loop of `on_initialize`). -/
def archiveParentHashes (cbh : Nat → Nat → Option Nat)
    (domains : List Nat) (parent_number parent_hash : Nat) :
    Nat → Nat → Option Nat :=
  match domains with
  | [] => cbh
  | d :: rest =>
    archiveParentHashes (setF2 cbh d parent_number (some parent_hash)) rest
      parent_number parent_hash

/-- Translated from `lib.rs` `on_initialize`: store the hash of the
parent consensus block for every domain that had bundles in it while
draining `SuccessfulBundles`, and clear `SuccessfulFraudProofs`.  (The
scheduled runtime upgrades of `do_upgrade_runtimes` act on the runtime
registry, which is outside the modelled state.) -/
def on_initialize (st : State) (block_number : Nat) (env : Env) : State :=
  let parent_number := block_number - 1
  let parent_hash := env.blockHash parent_number
  { st with
    consensusBlockHash :=
      archiveParentHashes st.consensusBlockHash (st.successfulBundles.map Prod.fst)
        parent_number parent_hash
    successfulBundles := []
    successfulFraudProofs := fun _ => [] }

/-- Translated from `lib.rs` `on_finalize`: clear
`LastEpochStakingDistribution` and `HeadReceiptExtended`. -/
def on_finalize (st : State) : State :=
  { st with
    lastEpochStakingDistribution := fun _ => none
    headReceiptExtended := fun _ => false }

/-! ### Concrete fixtures used by witnesses -/

/-- Concrete configuration: pruning depth 5, epoch duration 10, bundle
longevity 3. -/
def cfgW : Cfg := ⟨5, 10, 3⟩

/-- Concrete environment at consensus block 1. -/
def envW : Env :=
  { currentBlockNumber := 1
    parentHash := 77
    blockHash := fun _ => 77
    futureSlot := fun _ => some 1000
    slotProducedAfter := fun _ => some 0
    isProofOfTimeValid := fun _ _ _ _ => true }

/-- Genesis receipt of the fixture domain 0. -/
def erW0 : ExecutionReceipt := ⟨0, 40, 0, 0, 0, []⟩

/-- Receipt at domain block 1 (parent: node hash 8). -/
def erW1 : ExecutionReceipt := ⟨1, 41, 8, 0, 77, []⟩

/-- Receipt at domain block 2 (parent: the unknown hash 100). -/
def erW2 : ExecutionReceipt := ⟨2, 42, 100, 0, 77, []⟩

/-- An orphaned receipt at domain block 9. -/
def erW9 : ExecutionReceipt := ⟨9, 49, 100, 0, 77, []⟩

/-- A fixture state for validation witnesses: domain 0 with head
receipt number 2, block-tree nodes at hashes 4 (genesis), 5 (block 2),
6 (orphan at block 9), 7 (block 1, parent node at hash 8) and 8
(another genesis record), and operator 7 registered. -/
def stW : State :=
  { emptyState with
    blockTreeNodes := fun h =>
      if h = 4 then some ⟨erW0, [7]⟩
      else if h = 5 then some ⟨erW2, [7]⟩
      else if h = 6 then some ⟨erW9, [7]⟩
      else if h = 7 then some ⟨erW1, [7]⟩
      else if h = 8 then some ⟨erW0, [7]⟩
      else none
    operators := fun op => if op = 7 then some ⟨3, .Registered, 50⟩ else none
    headReceiptNumber := fun _ => 2 }

/-- Receipt at domain block 1 used by the fraud-proof dispatch
fixture. -/
def erC1 : ExecutionReceipt := ⟨1, 41, 4, 0, 77, []⟩

/-- Fixture state for fraud-proof dispatch: domain 0 with head receipt
number 1, the (bad) receipt `erC1` stored at hash 5 and indexed in the
block tree, and operator 7 registered. -/
def stC1 : State :=
  { emptyState with
    blockTreeNodes := fun h => if h = 5 then some ⟨erC1, [7]⟩ else none
    blockTree := fun d bn => if d = 0 ∧ bn = 1 then some 5 else none
    headReceiptNumber := fun _ => 1
    operators := fun op => if op = 7 then some ⟨3, .Registered, 50⟩ else none }

/-- The dispatch result of the C1 witness run (evaluated once). -/
def c1res : State × List Event :=
  match submit_fraud_proof stC1 (.InvalidBlockFees 0 5 true) with
  | .ok r => r
  | .error _ => (stC1, [])

/-- The dispatch result of the C9 witness run (evaluated once). -/
def c9res : State × List Event :=
  match submit_fraud_proof stC1 (.BundleEquivocation 0 7 13 true) with
  | .ok r => r
  | .error _ => (stC1, [])

/-- Genesis receipt of the bundle-submission fixture. -/
def erG : ExecutionReceipt := ⟨0, 40, 0, 0, 0, []⟩

/-- A receipt extending the fixture genesis (domain block 1, built on
consensus block 0 whose archived hash is 77). -/
def erN : ExecutionReceipt := ⟨1, 41, erHash erG, 0, 77, []⟩

/-- Fixture state for bundle submission: domain 0 freshly instantiated
with its genesis receipt, head receipt number 0, the consensus hash of
block 0 archived, and operator 7 registered. -/
def stC3 : State :=
  { emptyState with
    blockTree := fun d bn => if d = 0 ∧ bn = 0 then some (erHash erG) else none
    blockTreeNodes := fun h => if h = erHash erG then some ⟨erG, [7]⟩ else none
    consensusBlockHash := fun d cbn => if d = 0 ∧ cbn = 0 then some 77 else none
    operators := fun op => if op = 7 then some ⟨3, .Registered, 50⟩ else none }

/-- A bundle of operator 7 carrying the receipt `erN`. -/
def bC3 : OpaqueBundle :=
  ⟨⟨⟨0, 7, ⟨1, 0, 3, true, 0⟩, erN, 0, 0⟩, ⟨3, 0, 0⟩⟩, [], 0, 10⟩

/-- The dispatch result of the C3 witness run (evaluated once). -/
def c3res : State × List Event :=
  match submit_bundle cfgW envW stC3 bC3 with
  | .ok r => r
  | .error _ => (stC3, [])

/-- Bundle header of the duplication fixtures. -/
def bHdrC4 : BundleHeader := ⟨0, 7, ⟨1, 0, 3, true, 0⟩, erC1, 0, 0⟩

/-- A bundle whose header is already inboxed but whose signature is
invalid (signed by key 999 instead of the operator's key 3). -/
def bC4bad : OpaqueBundle := ⟨⟨bHdrC4, ⟨999, bHdrC4.preHash, 0⟩⟩, [], 0, 10⟩

/-- A bundle whose header is already inboxed, re-signed by the
operator's key with a different signature (nonce 5). -/
def bC4dup : OpaqueBundle := ⟨⟨bHdrC4, ⟨3, bHdrC4.preHash, 5⟩⟩, [], 0, 10⟩

/-- Fixture state for the duplication check: operator 7 registered and
the header hash of `bHdrC4` already present in `InboxedBundleAuthor`. -/
def stC4 : State :=
  { emptyState with
    operators := fun op => if op = 7 then some ⟨3, .Registered, 50⟩ else none
    inboxedBundleAuthor := fun h => if h = bHdrC4.preHash then some 7 else none }

/-! ### The receipt-tree invariant and the step relation -/

/-- The per-domain receipt-tree invariant: the head receipt number
never drops below the latest confirmed block number, every non-genesis
block-tree entry lies strictly above the latest confirmed block, and
every non-genesis block-tree entry lies within
`BlockTreePruningDepth` of the head (the challenge window). -/
def DomainInv (cfg : Cfg) (st : State) (d : Nat) : Prop :=
  latest_confirmed_domain_block_number st d ≤ st.headReceiptNumber d ∧
  (∀ bn, bn ≠ 0 → (st.blockTree d bn).isSome →
    latest_confirmed_domain_block_number st d < bn) ∧
  (∀ bn, bn ≠ 0 → (st.blockTree d bn).isSome →
    st.headReceiptNumber d < bn + cfg.blockTreePruningDepth)

/-- The receipt-tree invariant for every domain. -/
def Inv (cfg : Cfg) (st : State) : Prop := ∀ d, DomainInv cfg st d

/-- One applied extrinsic or hook of the pallet: a bundle that passes
`validate_bundle` (the `pre_dispatch` gate of unsigned extrinsics) and
dispatches successfully, a fraud proof that passes
`validate_fraud_proof` and dispatches successfully, or a block-boundary
hook. -/
inductive Step (cfg : Cfg) : State → State → Prop where
  | bundle (env : Env) (b : OpaqueBundle) (st st' : State) (ev : List Event) :
      validate_bundle cfg env st b true = .ok () →
      submit_bundle cfg env st b = .ok (st', ev) →
      Step cfg st st'
  | fraudProof (fp : FraudProof) (st st' : State) (ev : List Event)
      (tp : FraudProofTag × Nat) :
      validate_fraud_proof cfg st fp = .ok tp →
      submit_fraud_proof st fp = .ok (st', ev) →
      Step cfg st st'
  | initHook (st : State) (block_number : Nat) (env : Env) :
      Step cfg st ( on_initialize st block_number env)
  | finalizeHook (st : State) :
      Step cfg st (on_finalize st)

/-- States reachable from `st0` by applied extrinsics and hooks. -/
inductive Reachable (cfg : Cfg) (st0 : State) : State → Prop where
  | refl : Reachable cfg st0 st0
  | step {st st' : State} : Reachable cfg st0 st → Step cfg st st' →
      Reachable cfg st0 st'

/-- Fixture state for the hook claims: `HeadReceiptExtended` set for
domain 0, a successful bundle recorded for domain 0, and an epoch
distribution stored. -/
def stC8 : State :=
  { emptyState with
    headReceiptExtended := fun d => d == 0
    successfulBundles := [(0, [9])]
    lastEpochStakingDistribution := fun d => if d = 0 then some ⟨[(7, 50)], 50⟩ else none }

/-! ### Helper lemmas -/

/-- Full characterisation of a successful `do_slash_operators` run: the
emitted events are exactly one `OperatorSlashed` per listed operator in
order, every listed operator existed and ends with status
`PendingSlash`, unlisted operators are untouched, and every other
storage item is untouched. -/
theorem do_slash_operators_ok_spec (ops : List Nat) (st : State)
    (reason : SlashedReason) (st' : State) (ev : List Event)
    (h : do_slash_operators st ops reason = .ok (st', ev)) :
    ev = ops.map (fun op => Event.OperatorSlashed op reason) ∧
    (∀ op', st'.operators op' =
      if op' ∈ ops then (st.operators op').map (fun o => { o with status := .PendingSlash })
      else st.operators op') ∧
    (∀ op' ∈ ops, (st.operators op').isSome) ∧
    st'.successfulBundles = st.successfulBundles ∧
    st'.successfulFraudProofs = st.successfulFraudProofs ∧
    st'.domainStakingSummary = st.domainStakingSummary ∧
    st'.domainRegistry = st.domainRegistry ∧
    st'.blockTree = st.blockTree ∧
    st'.blockTreeNodes = st.blockTreeNodes ∧
    st'.headReceiptNumber = st.headReceiptNumber ∧
    st'.headReceiptExtended = st.headReceiptExtended ∧
    st'.consensusBlockHash = st.consensusBlockHash ∧
    st'.executionInbox = st.executionInbox ∧
    st'.inboxedBundleAuthor = st.inboxedBundleAuthor ∧
    st'.headDomainNumber = st.headDomainNumber ∧
    st'.lastEpochStakingDistribution = st.lastEpochStakingDistribution ∧
    st'.latestConfirmedDomainBlock = st.latestConfirmedDomainBlock ∧
    st'.latestSubmittedER = st.latestSubmittedER := by
  induction ops generalizing st ev with
  | nil =>
    simp only [do_slash_operators] at h
    cases h
    simp
  | cons op rest ih =>
    simp only [do_slash_operators] at h
    split at h
    · exact absurd h (by simp)
    next o hop =>
      split at h
      · exact absurd h (by simp)
      next st2 ev2 hrec =>
        cases h
        obtain ⟨hev, hops, hsome, hfr⟩ := ih _ _ hrec
        refine ⟨by simp [hev], ?_, ?_, ?_⟩
        · intro op'
          have hops' := hops op'
          by_cases heq : op' = op
          · subst heq
            by_cases hmem : op' ∈ rest
            · simp only [hmem, if_true] at hops'
              simp [hops', setF, hop]
            · simp only [hmem, if_false] at hops'
              simp [hops', setF, hop]
          · by_cases hmem : op' ∈ rest
            · simp only [hmem, if_true] at hops'
              simp [hops', setF, heq, hmem]
            · simp only [hmem, if_false] at hops'
              simp [hops', setF, heq, hmem]
        · intro op' hmem
          rcases List.mem_cons.mp hmem with heq | hmem'
          · subst heq; simp [hop]
          · have h2 := hsome op' hmem'
            by_cases heq : op' = op
            · subst heq; simp [hop]
            · simp only [setF, heq, if_false] at h2
              exact h2
        · exact hfr

/-- Frame of the receipt-handling phase of `submit_bundle`: the
storage items written only by the common tail. -/
def ReceiptPhaseFrame (st st' : State) : Prop :=
  st'.headDomainNumber = st.headDomainNumber ∧
  st'.successfulBundles = st.successfulBundles ∧
  st'.inboxedBundleAuthor = st.inboxedBundleAuthor

theorem receiptPhaseFrame_refl (st : State) : ReceiptPhaseFrame st st := ⟨rfl, rfl, rfl⟩

theorem receiptPhaseFrame_trans {st1 st2 st3 : State}
    (h1 : ReceiptPhaseFrame st1 st2) (h2 : ReceiptPhaseFrame st2 st3) :
    ReceiptPhaseFrame st1 st3 :=
  ⟨h2.1.trans h1.1, h2.2.1.trans h1.2.1, h2.2.2.trans h1.2.2⟩

/-- `prune_receipt` only (possibly) removes one block-tree entry and
its node record; everything else is untouched. -/
theorem prune_receipt_ok_spec (st : State) (d bn : Nat) (r : Option BlockTreeNode)
    (st' : State) (h : prune_receipt st d bn = .ok (r, st')) :
    ReceiptPhaseFrame st st' ∧
    st'.headReceiptNumber = st.headReceiptNumber ∧
    st'.latestConfirmedDomainBlock = st.latestConfirmedDomainBlock ∧
    st'.operators = st.operators ∧
    st'.domainStakingSummary = st.domainStakingSummary ∧
    st'.executionInbox = st.executionInbox ∧
    st'.headReceiptExtended = st.headReceiptExtended ∧
    st'.lastEpochStakingDistribution = st.lastEpochStakingDistribution ∧
    st'.successfulFraudProofs = st.successfulFraudProofs ∧
    (∀ d' bn', st'.blockTree d' bn' = st.blockTree d' bn' ∨ st'.blockTree d' bn' = none) ∧
    (r.isSome → st'.blockTree d bn = none ∧ (st.blockTree d bn).isSome) ∧
    (r = none → st' = st ∧ st.blockTree d bn = none) := by
  unfold prune_receipt at h
  split at h
  next hbt =>
    cases h
    refine ⟨receiptPhaseFrame_refl _, rfl, rfl, rfl, rfl, rfl, rfl, rfl, rfl, ?_, ?_, ?_⟩
    · intro d' bn'; exact Or.inl rfl
    · intro hs; exact absurd hs (by simp)
    · intro _; exact ⟨rfl, hbt⟩
  next rh hbt =>
    split at h
    · exact absurd h (by simp)
    next node hn =>
      cases h
      refine ⟨⟨rfl, rfl, rfl⟩, rfl, rfl, rfl, rfl, rfl, rfl, rfl, rfl, ?_, ?_, ?_⟩
      · intro d' bn'
        by_cases hk : d' = d ∧ bn' = bn
        · refine Or.inr ?_
          show setF2 st.blockTree d bn none d' bn' = none
          rw [hk.1, hk.2]
          exact setF2_self _ _ _ _
        · refine Or.inl ?_
          exact setF2_ne _ _ _ _ _ _ hk
      · intro _
        constructor
        · exact setF2_self _ _ _ _
        · rw [hbt]; rfl
      · intro hc; exact absurd hc (by simp)

/-- `process_execution_receipt` never touches `HeadDomainNumber`,
`SuccessfulBundles` or `InboxedBundleAuthor`. -/
theorem process_execution_receipt_frame (cfg : Cfg) (st : State) (d op : Nat)
    (er : ExecutionReceipt) (t : AcceptedReceiptType) (st' : State)
    (ci : Option ConfirmedInfo)
    (h : process_execution_receipt cfg st d op er t = .ok (st', ci)) :
    ReceiptPhaseFrame st st' := by
  unfold process_execution_receipt at h
  match t with
  | .CurrentHead =>
    simp only at h
    split at h <;> (try split at h) <;> (cases h; exact ⟨rfl, rfl, rfl⟩)
  | .NewHead =>
    simp only at h
    split at h
    · split at h
      · exact absurd h (by simp)
      next node stP hp =>
        obtain ⟨⟨h1, h2, h3⟩, -⟩ := prune_receipt_ok_spec _ _ _ _ _ hp
        cases h
        exact ⟨h1, h2, h3⟩
      next stP hp =>
        obtain ⟨⟨h1, h2, h3⟩, -⟩ := prune_receipt_ok_spec _ _ _ _ _ hp
        cases h
        exact ⟨h1, h2, h3⟩
    · cases h
      exact ⟨rfl, rfl, rfl⟩

/-- `do_finalize_domain_current_epoch` only touches
`LastEpochStakingDistribution` and `DomainStakingSummary`. -/
theorem do_finalize_domain_current_epoch_frame (st : State) (d : Nat) (st' : State)
    (idx : Nat) (h : do_finalize_domain_current_epoch st d = .ok (st', idx)) :
    ReceiptPhaseFrame st st' ∧
    st'.headReceiptNumber = st.headReceiptNumber ∧
    st'.latestConfirmedDomainBlock = st.latestConfirmedDomainBlock ∧
    st'.blockTree = st.blockTree ∧
    st'.blockTreeNodes = st.blockTreeNodes := by
  unfold do_finalize_domain_current_epoch at h
  split at h
  · exact absurd h (by simp)
  · cases h
    exact ⟨⟨rfl, rfl, rfl⟩, rfl, rfl, rfl, rfl⟩

/-- The pre-prune phase never touches `HeadDomainNumber`,
`SuccessfulBundles` or `InboxedBundleAuthor`. -/
theorem bundlePrunePhase_frame (st : State) (d : Nat) (er : ExecutionReceipt)
    (t : AcceptedReceiptType) (st' : State) (ev : List Event)
    (h : bundlePrunePhase st d er t = .ok (st', ev)) :
    ReceiptPhaseFrame st st' := by
  unfold bundlePrunePhase at h
  rcases t with _ | _
  · simp only at h
    split at h
    · exact absurd h (by simp)
    next node st1 hp =>
      split at h
      · exact absurd h (by simp)
      next st1' ev1' hs =>
        cases h
        obtain ⟨⟨h1, h2, h3⟩, -⟩ := prune_receipt_ok_spec _ _ _ _ _ hp
        obtain ⟨-, -, -, hsb, -, -, -, -, -, -, -, -, -, hiba, hhdn, -⟩ :=
          do_slash_operators_ok_spec _ _ _ _ _ hs
        exact ⟨hhdn.trans h1, hsb.trans h2, hiba.trans h3⟩
    next st1 hp =>
      cases h
      obtain ⟨hfr, -⟩ := prune_receipt_ok_spec _ _ _ _ _ hp
      exact hfr
  · simp only at h
    cases h
    exact receiptPhaseFrame_refl _

/-- The post-confirmation phase never touches `HeadDomainNumber`,
`SuccessfulBundles` or `InboxedBundleAuthor`. -/
theorem bundleConfirmPhase_frame (cfg : Cfg) (st : State) (d : Nat)
    (ci : ConfirmedInfo) (st' : State) (ev : List Event)
    (h : bundleConfirmPhase cfg st d ci = .ok (st', ev)) :
    ReceiptPhaseFrame st st' := by
  unfold bundleConfirmPhase refund_storage_fee do_reward_operators at h
  simp only at h
  split at h
  · exact absurd h (by simp)
  next st6 ev2 hs =>
    obtain ⟨-, -, -, hsb, -, -, -, -, -, -, -, -, -, hiba, hhdn, -⟩ :=
      do_slash_operators_ok_spec _ _ _ _ _ hs
    have hfr3 : ReceiptPhaseFrame st st6 := ⟨hhdn, hsb, hiba⟩
    split at h
    · split at h
      · exact absurd h (by simp)
      next st7 idx hf =>
        cases h
        obtain ⟨hfr4, -⟩ := do_finalize_domain_current_epoch_frame _ _ _ _ hf
        exact receiptPhaseFrame_trans hfr3 hfr4
    · cases h
      exact hfr3

/-- The receipt-handling phase of `submit_bundle` never touches
`HeadDomainNumber`, `SuccessfulBundles` or `InboxedBundleAuthor`. -/
theorem handleReceipt_frame (cfg : Cfg) (st : State) (d op : Nat)
    (er : ExecutionReceipt) (t : AcceptedReceiptType) (st' : State) (ev : List Event)
    (h : handleReceipt cfg st d op er t = .ok (st', ev)) :
    ReceiptPhaseFrame st st' := by
  unfold handleReceipt at h
  split at h
  · exact absurd h (by simp)
  next st2 ev1 hpr =>
    have hfr1 := bundlePrunePhase_frame _ _ _ _ _ _ hpr
    split at h
    · exact absurd h (by simp)
    · next st3 hp3 =>
      cases h
      exact receiptPhaseFrame_trans hfr1 (process_execution_receipt_frame _ _ _ _ _ _ _ _ hp3)
    · next st3 ci hp3 =>
      have hfr2 := process_execution_receipt_frame _ _ _ _ _ _ _ _ hp3
      split at h
      · exact absurd h (by simp)
      next st7 ev2 hcf =>
        cases h
        exact receiptPhaseFrame_trans hfr1
          (receiptPhaseFrame_trans hfr2 (bundleConfirmPhase_frame _ _ _ _ _ _ hcf))

/-- Appending for a domain updates exactly that domain's successful
bundle list. -/
theorem sbGet_sbAppend_self (l : List (Nat × List Nat)) (d h : Nat) :
    sbGet (sbAppend l d h) d = sbGet l d ++ [h] := by
  induction l with
  | nil => simp [sbAppend, sbGet]
  | cons kv rest ih =>
    obtain ⟨k, v⟩ := kv
    by_cases hk : k = d
    · subst hk
      simp [sbAppend, sbGet]
    · simp [sbAppend, sbGet, hk, ih]

/-- What the common tail of `submit_bundle` does: raise the head domain
number exactly when `SuccessfulBundles` is empty, append the bundle's
digest to the inbox of the (possibly just raised) building domain
block, record the bundle hash, and deposit `BundleStored`. -/
theorem bundleTail_spec (env : Env) (st : State) (b : OpaqueBundle) :
    ((bundleTail env st b).1.headDomainNumber b.domainId =
      if sbGet st.successfulBundles b.domainId = [] then st.headDomainNumber b.domainId + 1
      else st.headDomainNumber b.domainId) ∧
    ((bundleTail env st b).1.executionInbox b.domainId
        ((bundleTail env st b).1.headDomainNumber b.domainId) env.currentBlockNumber =
      st.executionInbox b.domainId
          ((bundleTail env st b).1.headDomainNumber b.domainId) env.currentBlockNumber ++
        [⟨b.sealedHeader.preHash, b.extrinsicsRoot, b.size⟩]) ∧
    sbGet (bundleTail env st b).1.successfulBundles b.domainId ≠ [] ∧
    (bundleTail env st b).2 = [.BundleStored b.domainId b.bundleHash b.operatorId] := by
  by_cases hempty : sbGet st.successfulBundles b.domainId = [] <;>
    refine ⟨?_, ?_, ?_, rfl⟩ <;>
      simp [bundleTail, hempty, inboxAppend, setF, sbGet_sbAppend_self]

/-! ### Claim C6 -/

/-- Claim C6, counterexample: at `cur = 2^255`, `actual = 4`,
`expected = 2`, `calculate_tx_range` returns `2^255 - 1` — the
`U256::saturating_mul` caps `cur * actual` at `U256::MAX` before the
division — which differs both from the claim's
`cur * actual / expected` clamped to `[cur/4, cur*4]` (which would be
`2^256`) and from `cur` itself (so the overflow is not an
"intermediate computation cannot be performed, return cur" case). -/
theorem c6_txrange_counterexample :
    calculate_tx_range (2 ^ 255) 4 2 = 2 ^ 255 - 1 ∧
    calculate_tx_range (2 ^ 255) 4 2 ≠
      max (2 ^ 255 / 4) (min (2 ^ 255 * 4 / 2) (2 ^ 255 * 4)) ∧
    calculate_tx_range (2 ^ 255) 4 2 ≠ 2 ^ 255 := by
  refine ⟨?_, ?_, ?_⟩ <;> decide

/-- Claim C6, amended: `calculate_tx_range cur actual expected` always
lies in `[cur/4, cur*4]`; it returns `cur` when `actual = 0` or
`expected = 0`; when `cur * actual` does not overflow `U256` it equals
`cur * actual / expected` clamped to
`[cur/4, min (cur*4) U256::MAX]` (on overflow the product saturates at
`U256::MAX` instead of leaving `cur` unchanged); and the claim's
concrete examples hold. -/
theorem c6_txrange_amended (cur actual expected : Nat) :
    (cur / 4 ≤ calculate_tx_range cur actual expected ∧
      calculate_tx_range cur actual expected ≤ cur * 4) ∧
    ((actual = 0 ∨ expected = 0) → calculate_tx_range cur actual expected = cur) ∧
    (actual ≠ 0 → expected ≠ 0 → actual * cur ≤ U256_MAX →
      calculate_tx_range cur actual expected =
        max (cur / 4) (min (actual * cur / expected) (min (cur * 4) U256_MAX))) ∧
    calculate_tx_range 1000 24 6 = 4000 ∧ calculate_tx_range 4000 1 6 = 1000 := by
  refine ⟨?_, ?_, ?_, by decide, by decide⟩
  · by_cases h : actual = 0 ∨ expected = 0
    · simp only [calculate_tx_range, h, if_true]
      constructor
      · exact Nat.div_le_self cur 4
      · omega
    · have ha : actual ≠ 0 := fun hc => h (Or.inl hc)
      have he : expected ≠ 0 := fun hc => h (Or.inr hc)
      have hred : calculate_tx_range cur actual expected =
          max (cur / 4)
            (min (min (actual * cur) U256_MAX / expected) (min (cur * 4) U256_MAX)) := by
        simp [calculate_tx_range, u256CheckedDiv, u256SaturatingMul, u256Clamp, ha, he]
      rw [hred]
      constructor
      · exact le_max_left _ _
      · refine max_le (le_trans (Nat.div_le_self cur 4) (by omega)) ?_
        exact le_trans (min_le_right _ _) (le_trans (min_le_left _ _) (by omega))
  · intro h
    simp only [calculate_tx_range, h, if_true]
  · intro ha he hbound
    have hred : calculate_tx_range cur actual expected =
        max (cur / 4)
          (min (min (actual * cur) U256_MAX / expected) (min (cur * 4) U256_MAX)) := by
      simp [calculate_tx_range, u256CheckedDiv, u256SaturatingMul, u256Clamp, ha, he]
    rw [hred, min_eq_left hbound]

/-- Claim C6, witness for the amended theorem at `cur = 1000`,
`actual = 24`, `expected = 6`. -/
theorem c6_txrange_amended_witness :
    (24 ≠ 0) ∧ (6 ≠ 0) ∧ (24 * 1000 ≤ U256_MAX) ∧
    calculate_tx_range 1000 24 6 =
      max (1000 / 4) (min (24 * 1000 / 6) (min (1000 * 4) U256_MAX)) :=
  ⟨by decide, by decide, by decide,
    (c6_txrange_amended 1000 24 6).2.2.1 (by decide) (by decide) (by decide)⟩

/-! ### Claim C10 -/

/-- Claim C10: for a domain with no entry in
`LatestConfirmedDomainBlock`, `latest_confirmed_domain_block_number`
returns `0` (the genesis block is the default confirmed block), and
`oldest_unconfirmed_receipt_number` is accordingly well-defined: it
returns `1` exactly when a receipt exists at block `1` and the head
receipt number is non-zero, and `none` otherwise. -/
theorem c10_default_confirmed_block (st : State) (d : Nat)
    (h : st.latestConfirmedDomainBlock d = none) :
    latest_confirmed_domain_block_number st d = 0 ∧
    oldest_unconfirmed_receipt_number st d =
      (if (st.blockTree d 1).isSome ∧ st.headReceiptNumber d ≠ 0 then some 1 else none) := by
  have h0 : latest_confirmed_domain_block_number st d = 0 := by
    simp [latest_confirmed_domain_block_number, h]
  refine ⟨h0, ?_⟩
  by_cases h1 : (st.blockTree d 1).isSome <;>
    by_cases h2 : st.headReceiptNumber d = 0 <;>
      simp [oldest_unconfirmed_receipt_number, h0, is_bad_er_pending_to_prune,
        Nat.lt_one_iff, h1, h2]

/-- Claim C10, witness at the all-default state. -/
theorem c10_default_confirmed_block_witness :
    emptyState.latestConfirmedDomainBlock 0 = none ∧
    (latest_confirmed_domain_block_number emptyState 0 = 0 ∧
      oldest_unconfirmed_receipt_number emptyState 0 =
        (if (emptyState.blockTree 0 1).isSome ∧ emptyState.headReceiptNumber 0 ≠ 0
          then some 1 else none)) :=
  ⟨rfl, c10_default_confirmed_block emptyState 0 rfl⟩

/-! ### Claim C7 -/

/-- Claim C7: a successfully validated receipt-targeting fraud proof
gets mempool tag `BadER(domain)` and priority
`TransactionPriority::MAX - (bad receipt number - latest confirmed
number)`; a successfully validated bundle-equivocation proof gets tag
`BundleEquivocation(operator)` and priority
`MAX - BlockTreePruningDepth - 1`. -/
theorem c7_fraud_proof_tag_and_priority (cfg : Cfg) (st : State) :
    (∀ (fp : FraudProof) (h : Nat) (node : BlockTreeNode)
        (tag : FraudProofTag) (priority : Nat),
      fp.targetedBadReceiptHash = some h →
      st.blockTreeNodes h = some node →
      validate_fraud_proof cfg st fp = .ok (tag, priority) →
      tag = .BadER fp.domainId ∧
        priority = U64_MAX - (node.executionReceipt.domainBlockNumber -
          latest_confirmed_domain_block_number st fp.domainId)) ∧
    (∀ (d : Nat) (op : Nat) (slot : Nat) (v : Bool)
        (tag : FraudProofTag) (priority : Nat),
      validate_fraud_proof cfg st (.BundleEquivocation d op slot v) = .ok (tag, priority) →
      tag = .BundleEquivocation op ∧
        priority = U64_MAX - cfg.blockTreePruningDepth - 1) := by
  constructor
  · intro fp h node tag priority hT hN hOk
    unfold validate_fraud_proof at hOk
    rw [hT] at hOk
    simp only [hN] at hOk
    split at hOk
    · exact absurd hOk (by simp)
    split at hOk
    · exact absurd hOk (by simp)
    split at hOk
    · exact absurd hOk (by simp)
    next hU =>
      simp only [Except.ok.injEq, Prod.mk.injEq] at hOk
      exact ⟨hOk.1.symm, hOk.2.symm⟩
  · intro d op slot v tag priority hOk
    unfold validate_fraud_proof at hOk
    simp only [FraudProof.targetedBadReceiptHash, FraudProof.targetedBadOperatorAndSlot]
      at hOk
    split at hOk
    · exact absurd hOk (by simp)
    split at hOk
    · simp only [Except.ok.injEq, Prod.mk.injEq] at hOk
      exact ⟨hOk.1.symm, hOk.2.symm⟩
    · exact absurd hOk (by simp)

/-! ### Claim C5 -/

/-- Claim C5: the gates of receipt-targeting fraud-proof validation
fire in order and fail fast: missing bad receipt
(`BadReceiptNotFound`), then zero block number
(`ChallengingGenesisReceipt`, so the genesis receipt is never a valid
target), then already pending pruning (`BadReceiptAlreadyReported`),
then the variant-specific verification, with the parent receipt
required to exist for the variants that need it
(`ParentReceiptNotFound`) and a dedicated error per failed variant
verification. -/
theorem c5_fraud_proof_validation_gates (cfg : Cfg) (st : State) :
    (∀ (fp : FraudProof) (h : Nat),
      fp.targetedBadReceiptHash = some h →
      st.blockTreeNodes h = none →
      validate_fraud_proof cfg st fp = .error .BadReceiptNotFound) ∧
    (∀ (fp : FraudProof) (h : Nat) (node : BlockTreeNode),
      fp.targetedBadReceiptHash = some h →
      st.blockTreeNodes h = some node →
      node.executionReceipt.domainBlockNumber = 0 →
      validate_fraud_proof cfg st fp = .error .ChallengingGenesisReceipt) ∧
    (∀ (fp : FraudProof) (h : Nat) (node : BlockTreeNode),
      fp.targetedBadReceiptHash = some h →
      st.blockTreeNodes h = some node →
      node.executionReceipt.domainBlockNumber ≠ 0 →
      is_bad_er_pending_to_prune st fp.domainId
        node.executionReceipt.domainBlockNumber = true →
      validate_fraud_proof cfg st fp = .error .BadReceiptAlreadyReported) ∧
    (∀ (d : Nat) (h : Nat) (v : Bool) (node : BlockTreeNode),
      st.blockTreeNodes h = some node →
      node.executionReceipt.domainBlockNumber ≠ 0 →
      is_bad_er_pending_to_prune st d node.executionReceipt.domainBlockNumber = false →
      st.blockTreeNodes node.executionReceipt.parentDomainBlockReceiptHash = none →
      validate_fraud_proof cfg st (.InvalidStateTransition d h v) =
          .error .ParentReceiptNotFound ∧
        validate_fraud_proof cfg st (.InvalidBundles d h v) =
          .error .ParentReceiptNotFound ∧
        validate_fraud_proof cfg st (.InvalidDomainBlockHash d h v) =
          .error .ParentReceiptNotFound) ∧
    (∀ (d : Nat) (h : Nat) (node : BlockTreeNode),
      st.blockTreeNodes h = some node →
      node.executionReceipt.domainBlockNumber ≠ 0 →
      is_bad_er_pending_to_prune st d node.executionReceipt.domainBlockNumber = false →
      validate_fraud_proof cfg st (.InvalidBlockFees d h false) =
          .error .InvalidBlockFeesFraudProof ∧
        (st.blockTreeNodes node.executionReceipt.parentDomainBlockReceiptHash ≠ none →
          validate_fraud_proof cfg st (.InvalidStateTransition d h false) =
            .error .InvalidStateTransitionFraudProof)) := by
  refine ⟨?_, ?_, ?_, ?_, ?_⟩
  · intro fp h hT hN
    unfold validate_fraud_proof
    rw [hT]
    simp [hN]
  · intro fp h node hT hN h0
    unfold validate_fraud_proof
    rw [hT]
    simp [hN, h0]
  · intro fp h node hT hN h0 hP
    unfold validate_fraud_proof
    rw [hT]
    simp [hN, h0, hP]
  · intro d h v node hN h0 hP hPar
    refine ⟨?_, ?_, ?_⟩ <;>
    · unfold validate_fraud_proof
      simp [FraudProof.targetedBadReceiptHash, FraudProof.domainId,
        verifyFraudProofVariant, hN, h0, hP, hPar]
  · intro d h node hN h0 hP
    constructor
    · unfold validate_fraud_proof
      simp [FraudProof.targetedBadReceiptHash, FraudProof.domainId,
        verifyFraudProofVariant, hN, h0, hP]
    · intro hPar
      obtain ⟨parent, hparent⟩ := Option.ne_none_iff_exists'.mp hPar
      unfold validate_fraud_proof
      simp [FraudProof.targetedBadReceiptHash, FraudProof.domainId,
        verifyFraudProofVariant, hN, h0, hP, hparent]

/-- Claim C7, witness: both parts of the tag/priority theorem applied
at concrete inputs on the fixture state. -/
theorem c7_fraud_proof_tag_and_priority_witness :
    (FraudProofTag.BadER 0 = .BadER (FraudProof.InvalidBlockFees 0 5 true).domainId ∧
      U64_MAX - 2 =
        U64_MAX - ((⟨erW2, [7]⟩ : BlockTreeNode).executionReceipt.domainBlockNumber -
          latest_confirmed_domain_block_number stW
            (FraudProof.InvalidBlockFees 0 5 true).domainId)) ∧
    (FraudProofTag.BundleEquivocation 7 = .BundleEquivocation 7 ∧
      U64_MAX - 6 = U64_MAX - cfgW.blockTreePruningDepth - 1) :=
  ⟨(c7_fraud_proof_tag_and_priority cfgW stW).1 (.InvalidBlockFees 0 5 true) 5
      ⟨erW2, [7]⟩ (.BadER 0) (U64_MAX - 2) rfl rfl rfl,
    (c7_fraud_proof_tag_and_priority cfgW stW).2 0 7 11 true
      (.BundleEquivocation 7) (U64_MAX - 6) rfl⟩

/-- Claim C5, witness: each validation gate exercised at a concrete
input on the fixture state. -/
theorem c5_fraud_proof_validation_gates_witness :
    validate_fraud_proof cfgW stW (.InvalidTransfers 0 99 true) =
        .error .BadReceiptNotFound ∧
    validate_fraud_proof cfgW stW (.InvalidBlockFees 0 4 true) =
        .error .ChallengingGenesisReceipt ∧
    validate_fraud_proof cfgW stW (.ValidBundle 0 6 true) =
        .error .BadReceiptAlreadyReported ∧
    validate_fraud_proof cfgW stW (.InvalidStateTransition 0 5 true) =
        .error .ParentReceiptNotFound ∧
    validate_fraud_proof cfgW stW (.InvalidBundles 0 5 true) =
        .error .ParentReceiptNotFound ∧
    validate_fraud_proof cfgW stW (.InvalidDomainBlockHash 0 5 true) =
        .error .ParentReceiptNotFound ∧
    validate_fraud_proof cfgW stW (.InvalidBlockFees 0 5 false) =
        .error .InvalidBlockFeesFraudProof ∧
    validate_fraud_proof cfgW stW (.InvalidStateTransition 0 7 false) =
        .error .InvalidStateTransitionFraudProof := by
  have h4 := (c5_fraud_proof_validation_gates cfgW stW).2.2.2.1 0 5 true ⟨erW2, [7]⟩
    rfl (by decide) rfl rfl
  have h5 := (c5_fraud_proof_validation_gates cfgW stW).2.2.2.2 0 5 ⟨erW2, [7]⟩
    rfl (by decide) rfl
  exact ⟨(c5_fraud_proof_validation_gates cfgW stW).1 (.InvalidTransfers 0 99 true) 99
      rfl rfl,
    (c5_fraud_proof_validation_gates cfgW stW).2.1 (.InvalidBlockFees 0 4 true) 4
      ⟨erW0, [7]⟩ rfl rfl rfl,
    (c5_fraud_proof_validation_gates cfgW stW).2.2.1 (.ValidBundle 0 6 true) 6
      ⟨erW9, [7]⟩ rfl rfl (by decide) rfl,
    h4.1, h4.2.1, h4.2.2, h5.1,
    (c5_fraud_proof_validation_gates cfgW stW).2.2.2.2 0 7 ⟨erW1, [7]⟩
      rfl (by decide) rfl |>.2 (by decide)⟩

/-! ### Claim C1 -/

/-- Claim C1: a successfully dispatched fraud proof targeting a bad
receipt at domain block `n > 0` prunes that receipt's block-tree node,
slashes every operator recorded on it with reason
`BadExecutionReceipt(hash(r))` (status `PendingSlash` plus an
`OperatorSlashed` event), lowers `HeadReceiptNumber` to `n - 1` and
emits `FraudProofProcessed` with `new_head_receipt_number = Some (n-1)`.
The hypothesis `hBT` states the block tree's index consistency:
the tree entry at the bad receipt's height is its hash. -/
theorem c1_fraud_proof_prunes_and_slashes (st : State) (fp : FraudProof)
    (bad_hash : Nat) (node : BlockTreeNode) (st' : State) (ev : List Event)
    (hT : fp.targetedBadReceiptHash = some bad_hash)
    (hN : st.blockTreeNodes bad_hash = some node)
    (hBT : st.blockTree fp.domainId node.executionReceipt.domainBlockNumber = some bad_hash)
    (hPos : 0 < node.executionReceipt.domainBlockNumber)
    (hOk : submit_fraud_proof st fp = .ok (st', ev)) :
    st'.headReceiptNumber fp.domainId = node.executionReceipt.domainBlockNumber - 1 ∧
    st'.blockTreeNodes bad_hash = none ∧
    st'.blockTree fp.domainId node.executionReceipt.domainBlockNumber = none ∧
    (∀ op ∈ node.operatorIds,
      Event.OperatorSlashed op (.BadExecutionReceipt bad_hash) ∈ ev ∧
        ∃ o, st'.operators op = some o ∧ o.status = .PendingSlash) ∧
    Event.FraudProofProcessed fp.domainId
      (some (node.executionReceipt.domainBlockNumber - 1)) ∈ ev := by
  unfold submit_fraud_proof at hOk
  rw [hT] at hOk
  simp only [hN] at hOk
  split at hOk
  · exact absurd hOk (by simp)
  simp only [prune_receipt, hBT, hN] at hOk
  split at hOk
  · exact absurd hOk (by simp)
  next st2 ev2 hrec =>
    cases hOk
    obtain ⟨hev, hops, hsome, -, -, -, -, hbt, hbtn, -⟩ :=
      do_slash_operators_ok_spec _ _ _ _ _ hrec
    refine ⟨?_, ?_, ?_, ?_, ?_⟩
    · exact setF_self _ _ _
    · show st2.blockTreeNodes bad_hash = none
      rw [hbtn]
      exact setF_self _ _ _
    · show st2.blockTree fp.domainId node.executionReceipt.domainBlockNumber = none
      rw [hbt]
      exact setF2_self _ _ _ _
    · intro op hmem
      constructor
      · refine List.mem_append_left _ ?_
        rw [hev]
        exact List.mem_map_of_mem _ hmem
      · have h1 := hops op
        rw [if_pos hmem] at h1
        have h2 := hsome op hmem
        obtain ⟨o, ho⟩ := Option.isSome_iff_exists.mp h2
        refine ⟨{ o with status := .PendingSlash }, ?_, rfl⟩
        show st2.operators op = _
        rw [h1, ho]
        rfl
    · exact List.mem_append_right _ (List.mem_singleton.mpr rfl)

/-- Claim C1, witness: the theorem applied to the fixture state with
the bad receipt `erC1` at block 1. -/
theorem c1_fraud_proof_prunes_and_slashes_witness :
    submit_fraud_proof stC1 (.InvalidBlockFees 0 5 true) = .ok c1res ∧
    (c1res.1.headReceiptNumber 0 = 0 ∧
      c1res.1.blockTreeNodes 5 = none ∧
      c1res.1.blockTree 0 1 = none ∧
      (∀ op ∈ [7], Event.OperatorSlashed op (.BadExecutionReceipt 5) ∈ c1res.2 ∧
        ∃ o, c1res.1.operators op = some o ∧ o.status = .PendingSlash) ∧
      Event.FraudProofProcessed 0 (some 0) ∈ c1res.2) :=
  ⟨rfl,
    c1_fraud_proof_prunes_and_slashes stC1 (.InvalidBlockFees 0 5 true) 5
      ⟨erC1, [7]⟩ c1res.1 c1res.2 rfl rfl rfl (by decide) rfl⟩

/-! ### Claim C9 -/

/-- Claim C9: a successfully dispatched bundle-equivocation fraud proof
naming operator `op` and slot `slot` slashes exactly that operator with
reason `BundleEquivocation(slot)` (its status becomes `PendingSlash`,
all other operators are untouched), leaves `HeadReceiptNumber`
unchanged for every domain, and emits
`FraudProofProcessed { new_head_receipt_number = None }`. -/
theorem c9_bundle_equivocation_slashes_single_operator (st : State) (fp : FraudProof)
    (op : Nat) (slot : Nat) (st' : State) (ev : List Event)
    (hT : fp.targetedBadReceiptHash = none)
    (hOp : fp.targetedBadOperatorAndSlot = some (op, slot))
    (hOk : submit_fraud_proof st fp = .ok (st', ev)) :
    ev = [.FraudProofProcessed fp.domainId none,
      .OperatorSlashed op (.BundleEquivocation slot)] ∧
    st'.headReceiptNumber = st.headReceiptNumber ∧
    (∃ o, st.operators op = some o ∧
      st'.operators op = some { o with status := .PendingSlash }) ∧
    (∀ op', op' ≠ op → st'.operators op' = st.operators op') := by
  cases fp
  all_goals try exact Option.noConfusion hT
  rename_i d op0 slot0 v
  simp only [FraudProof.targetedBadOperatorAndSlot, Option.some.injEq, Prod.mk.injEq] at hOp
  obtain ⟨rfl, rfl⟩ := hOp
  unfold submit_fraud_proof at hOk
  simp only [FraudProof.targetedBadReceiptHash, FraudProof.targetedBadOperatorAndSlot]
    at hOk
  split at hOk
  · exact absurd hOk (by simp)
  next st2 ev2 hrec =>
    cases hOk
    obtain ⟨hev, hops, hsome, -, -, -, -, -, -, hhead, -⟩ :=
      do_slash_operators_ok_spec _ _ _ _ _ hrec
    refine ⟨?_, ?_, ?_, ?_⟩
    · rw [hev]; rfl
    · exact hhead
    · have h2 := hsome op0 (by simp)
      obtain ⟨o, ho⟩ := Option.isSome_iff_exists.mp h2
      refine ⟨o, ho, ?_⟩
      have h1 := hops op0
      rw [if_pos (by simp)] at h1
      show st2.operators op0 = _
      rw [h1, ho]
      rfl
    · intro op' hne
      have h1 := hops op'
      rw [if_neg (by simp [hne])] at h1
      exact h1

/-- Claim C9, witness: the theorem applied to a concrete equivocation
proof against operator 7 at slot 13. -/
theorem c9_bundle_equivocation_witness :
    submit_fraud_proof stC1 (.BundleEquivocation 0 7 13 true) = .ok c9res ∧
    (c9res.2 = [.FraudProofProcessed 0 none,
        .OperatorSlashed 7 (.BundleEquivocation 13)] ∧
      c9res.1.headReceiptNumber = stC1.headReceiptNumber ∧
      (∃ o, stC1.operators 7 = some o ∧
        c9res.1.operators 7 = some { o with status := .PendingSlash }) ∧
      (∀ op', op' ≠ 7 → c9res.1.operators op' = stC1.operators op')) :=
  ⟨rfl,
    c9_bundle_equivocation_slashes_single_operator stC1 (.BundleEquivocation 0 7 13 true)
      7 13 c9res.1 c9res.2 rfl rfl rfl⟩

/-! ### Claim C3 -/

/-- Claim C3: on every successfully dispatched bundle,
`HeadDomainNumber` is raised by exactly one iff this is the first
accepted bundle of the domain in this consensus block
(`SuccessfulBundles` empty) and left unchanged otherwise; the bundle's
digest `{header_hash, extrinsics_root, size}` is appended to
`ExecutionInbox` at key `(domain, HeadDomainNumber(domain), current
consensus block number)`; and afterwards `SuccessfulBundles` is
non-empty (so subsequent accepted bundles do not raise the head
again). -/
theorem c3_head_domain_number_and_inbox (cfg : Cfg) (env : Env) (st : State)
    (b : OpaqueBundle) (st' : State) (ev : List Event)
    (hOk : submit_bundle cfg env st b = .ok (st', ev)) :
    (sbGet st.successfulBundles b.domainId = [] →
      st'.headDomainNumber b.domainId = st.headDomainNumber b.domainId + 1) ∧
    (sbGet st.successfulBundles b.domainId ≠ [] →
      st'.headDomainNumber b.domainId = st.headDomainNumber b.domainId) ∧
    (∃ pre, st'.executionInbox b.domainId (st'.headDomainNumber b.domainId)
        env.currentBlockNumber =
      pre ++ [⟨b.sealedHeader.preHash, b.extrinsicsRoot, b.size⟩]) ∧
    sbGet st'.successfulBundles b.domainId ≠ [] := by
  unfold submit_bundle at hOk
  split at hOk
  · exact absurd hOk (by simp)
  next t hert =>
    split at hOk
    · exact absurd hOk (by simp)
    next st1 ev1 hhr =>
      cases hOk
      obtain ⟨hhdn, hsb, hiba⟩ := handleReceipt_frame _ _ _ _ _ _ _ _ hhr
      obtain ⟨hhead, hinbox, hne, -⟩ := bundleTail_spec env st1 b
      rw [hsb, hhdn] at hhead
      refine ⟨?_, ?_, ⟨_, hinbox⟩, hne⟩
      · intro hempty
        rw [hhead, if_pos hempty]
      · intro hempty
        rw [hhead, if_neg hempty]

/-- Claim C3, witness: a successful bundle submission on the fixture
state (empty `SuccessfulBundles`, so the head domain number is raised
from 0 to 1). -/
theorem c3_head_domain_number_and_inbox_witness :
    submit_bundle cfgW envW stC3 bC3 = .ok c3res ∧
    ((sbGet stC3.successfulBundles bC3.domainId = [] →
        c3res.1.headDomainNumber bC3.domainId = stC3.headDomainNumber bC3.domainId + 1) ∧
      (sbGet stC3.successfulBundles bC3.domainId ≠ [] →
        c3res.1.headDomainNumber bC3.domainId = stC3.headDomainNumber bC3.domainId) ∧
      (∃ pre, c3res.1.executionInbox bC3.domainId (c3res.1.headDomainNumber bC3.domainId)
          envW.currentBlockNumber =
        pre ++ [⟨bC3.sealedHeader.preHash, bC3.extrinsicsRoot, bC3.size⟩]) ∧
      sbGet c3res.1.successfulBundles bC3.domainId ≠ []) :=
  ⟨rfl, c3_head_domain_number_and_inbox cfgW envW stC3 bC3 c3res.1 c3res.2 rfl⟩

/-! ### Claim C4 -/

/-- Claim C4, counterexample: a bundle whose pre-image header hash is
already a key of `InboxedBundleAuthor` but whose signature does not
verify is rejected with `BadBundleSignature`, not `DuplicatedBundle` —
the signature check precedes the duplication check. -/
theorem c4_duplicate_bundle_counterexample :
    (stC4.inboxedBundleAuthor bC4bad.sealedHeader.preHash).isSome = true ∧
    validate_bundle cfgW envW stC4 bC4bad false = .error .BadBundleSignature ∧
    BundleError.BadBundleSignature ≠ BundleError.DuplicatedBundle :=
  ⟨rfl, rfl, by decide⟩

/-- Claim C4, amended: provided the checks ordered before duplication
pass — the operator exists, is neither `Slashed` nor `PendingSlash`,
and the signature verifies under the operator's current signing key —
a bundle whose pre-image header hash (computed without the signature)
is already a key of `InboxedBundleAuthor` is rejected with
`DuplicatedBundle`, for every signature; in particular a different
(re-signed) signature does not evade duplication detection. -/
theorem c4_duplicate_bundle_rejected (cfg : Cfg) (env : Env) (st : State)
    (b : OpaqueBundle) (pre_dispatch : Bool) (operator : Operator)
    (hop : st.operators b.operatorId = some operator)
    (hs1 : operator.status ≠ .Slashed) (hs2 : operator.status ≠ .PendingSlash)
    (hsig : sigVerify operator.signingKey b.sealedHeader.preHash b.sealedHeader.signature
      = true)
    (hdup : (st.inboxedBundleAuthor b.sealedHeader.preHash).isSome = true) :
    validate_bundle cfg env st b pre_dispatch = .error .DuplicatedBundle := by
  unfold validate_bundle
  simp only [hop]
  rw [if_neg (by rintro (hc | hc) <;> [exact hs1 hc; exact hs2 hc])]
  rw [if_neg (by simp [hsig])]
  unfold check_bundle_duplication
  simp [hdup]

/-- Claim C4, witness: the amended theorem applied to a bundle
re-signed by the operator's key with a different signature over an
already-inboxed header. -/
theorem c4_duplicate_bundle_rejected_witness :
    stC4.operators bC4dup.operatorId = some ⟨3, .Registered, 50⟩ ∧
    sigVerify (3 : Nat) bC4dup.sealedHeader.preHash bC4dup.sealedHeader.signature = true ∧
    (stC4.inboxedBundleAuthor bC4dup.sealedHeader.preHash).isSome = true ∧
    bC4dup.sealedHeader.signature ≠ (⟨3, bHdrC4.preHash, 0⟩ : Signature) ∧
    validate_bundle cfgW envW stC4 bC4dup false = .error .DuplicatedBundle :=
  ⟨rfl, rfl, rfl, by decide,
    c4_duplicate_bundle_rejected cfgW envW stC4 bC4dup false ⟨3, .Registered, 50⟩
      rfl (by decide) (by decide) rfl rfl⟩

/-! ### Claim C8 -/

/-- Archiving keeps an already-archived parent hash in place. -/
theorem archiveParentHashes_preserve (doms : List Nat)
    (cbh : Nat → Nat → Option Nat) (pn ph d : Nat)
    (h : cbh d pn = some ph) :
    archiveParentHashes cbh doms pn ph d pn = some ph := by
  induction doms generalizing cbh with
  | nil => exact h
  | cons d0 rest ih =>
    refine ih _ ?_
    by_cases hk : d = d0
    · subst hk
      exact setF2_self _ _ _ _
    · rw [setF2_ne _ _ _ _ _ _ (by simp [hk])]
      exact h

/-- Every domain in the drained list gets the parent hash archived. -/
theorem archiveParentHashes_mem (doms : List Nat)
    (cbh : Nat → Nat → Option Nat) (pn ph d : Nat)
    (hmem : d ∈ doms) :
    archiveParentHashes cbh doms pn ph d pn = some ph := by
  induction doms generalizing cbh with
  | nil => exact absurd hmem (by simp)
  | cons d0 rest ih =>
    rcases List.mem_cons.mp hmem with heq | hmem'
    · subst heq
      show archiveParentHashes (setF2 cbh d pn (some ph)) rest pn ph d pn = some ph
      exact archiveParentHashes_preserve rest _ pn ph d (setF2_self _ _ _ _)
    · show archiveParentHashes (setF2 cbh d0 pn (some ph)) rest pn ph d pn = some ph
      exact ih _ hmem'

/-- Claim C8, counterexample: `on_initialize` does not clear
`HeadReceiptExtended` — a domain with the flag set still has it set
after `on_initialize` runs (the code clears it in `on_finalize`
only). -/
theorem c8_scratch_clearing_counterexample :
    stC8.headReceiptExtended 0 = true ∧
    ( on_initialize stC8 5 envW).headReceiptExtended 0 = true :=
  ⟨rfl, rfl⟩

/-- Claim C8, amended: `on_initialize` of the next block clears
`SuccessfulBundles` and `SuccessfulFraudProofs` (but not
`HeadReceiptExtended`, which it leaves untouched) after archiving the
parent consensus block hash for every domain that produced a bundle in
the parent block; `on_finalize` clears `LastEpochStakingDistribution`
and `HeadReceiptExtended`. -/
theorem c8_scratch_clearing (st : State) (block_number : Nat) (env : Env) :
    (∀ d, sbGet ( on_initialize st block_number env).successfulBundles d = []) ∧
    (∀ d, ( on_initialize st block_number env).successfulFraudProofs d = []) ∧
    ( on_initialize st block_number env).headReceiptExtended = st.headReceiptExtended ∧
    (∀ d, d ∈ st.successfulBundles.map Prod.fst →
      ( on_initialize st block_number env).consensusBlockHash d (block_number - 1) =
        some (env.blockHash (block_number - 1))) ∧
    (∀ d, (on_finalize st).lastEpochStakingDistribution d = none) ∧
    (∀ d, (on_finalize st).headReceiptExtended d = false) := by
  refine ⟨?_, ?_, rfl, ?_, ?_, ?_⟩
  · intro d; rfl
  · intro d; rfl
  · intro d hmem
    exact archiveParentHashes_mem _ _ _ _ _ hmem
  · intro d; rfl
  · intro d; rfl

/-- Claim C8, witness: the amended theorem at the fixture state, with
the archival conjunct discharged for domain 0 (which produced a bundle
in the parent block). -/
theorem c8_scratch_clearing_witness :
    (0 : Nat) ∈ stC8.successfulBundles.map Prod.fst ∧
    sbGet ( on_initialize stC8 5 envW).successfulBundles 0 = [] ∧
    ( on_initialize stC8 5 envW).consensusBlockHash 0 4 = some (envW.blockHash 4) ∧
    (∀ d, (on_finalize stC8).lastEpochStakingDistribution d = none) :=
  ⟨by decide, (c8_scratch_clearing stC8 5 envW).1 0,
    (c8_scratch_clearing stC8 5 envW).2.2.2.1 0 (by decide),
    (c8_scratch_clearing stC8 5 envW).2.2.2.2.1⟩

/-! ### Invariant preservation machinery for claim C2 -/

/-- A per-domain congruence: the invariant transfers along equal tree,
head and confirmed-block data. -/
theorem domainInv_of_shrink (cfg : Cfg) (st st' : State) (d : Nat)
    (hc : st'.latestConfirmedDomainBlock d = st.latestConfirmedDomainBlock d)
    (hh : st'.headReceiptNumber d = st.headReceiptNumber d)
    (ht : ∀ bn, st'.blockTree d bn = st.blockTree d bn ∨ st'.blockTree d bn = none)
    (h : DomainInv cfg st d) : DomainInv cfg st' d := by
  obtain ⟨h1, h2, h3⟩ := h
  have hcn : latest_confirmed_domain_block_number st' d =
      latest_confirmed_domain_block_number st d := by
    unfold latest_confirmed_domain_block_number
    rw [hc]
  refine ⟨?_, ?_, ?_⟩
  · rw [hcn, hh]; exact h1
  · intro bn hne hsome
    rw [hcn]
    rcases ht bn with heq | hnone
    · exact h2 bn hne (heq ▸ hsome)
    · rw [hnone] at hsome; exact absurd hsome (by simp)
  · intro bn hne hsome
    rw [hh]
    rcases ht bn with heq | hnone
    · exact h3 bn hne (heq ▸ hsome)
    · rw [hnone] at hsome; exact absurd hsome (by simp)

/-- The whole-state variant of `domainInv_of_shrink`. -/
theorem inv_of_shrink (cfg : Cfg) (st st' : State)
    (hc : st'.latestConfirmedDomainBlock = st.latestConfirmedDomainBlock)
    (hh : st'.headReceiptNumber = st.headReceiptNumber)
    (ht : ∀ d bn, st'.blockTree d bn = st.blockTree d bn ∨ st'.blockTree d bn = none)
    (h : Inv cfg st) : Inv cfg st' := fun d =>
  domainInv_of_shrink cfg st st' d (congrFun hc d) (congrFun hh d) (ht d) (h d)

/-- A `NewHead` classification pins the receipt number to the head
plus one. -/
theorem execution_receipt_type_newHead_bn (st : State) (d : Nat)
    (er : ExecutionReceipt)
    (h : execution_receipt_type st d er = .Accepted .NewHead) :
    er.domainBlockNumber = st.headReceiptNumber d + 1 := by
  unfold execution_receipt_type at h
  by_cases h1 : er.domainBlockNumber ≤ latest_confirmed_domain_block_number st d
  · simp [h1] at h
  by_cases h2 : st.headReceiptNumber d + 1 < er.domainBlockNumber
  · simp [h1, h2] at h
  by_cases h3 : er.domainBlockNumber = st.headReceiptNumber d + 1
  · exact h3
  · simp only [h1, h2, h3, if_false] at h
    rcases hbt : st.blockTree d er.domainBlockNumber with _ | ph
    · rw [hbt] at h
      exact absurd h (by simp)
    · rw [hbt] at h
      by_cases h4 : ph = erHash er <;> simp [h4] at h

/-- A fraud proof targeting a bad receipt passes validation only if the
targeted node exists and its receipt number is non-zero. -/
theorem validate_fraud_proof_ok_target (cfg : Cfg) (st : State) (fp : FraudProof)
    (h : Nat) (tp : FraudProofTag × Nat)
    (hT : fp.targetedBadReceiptHash = some h)
    (hv : validate_fraud_proof cfg st fp = .ok tp) :
    ∃ node, st.blockTreeNodes h = some node ∧
      node.executionReceipt.domainBlockNumber ≠ 0 := by
  unfold validate_fraud_proof at hv
  rw [hT] at hv
  rcases hn : st.blockTreeNodes h with _ | node
  · simp only [hn] at hv
    exact absurd hv (by simp)
  · refine ⟨node, rfl, ?_⟩
    simp only [hn] at hv
    by_cases hz : node.executionReceipt.domainBlockNumber = 0
    · simp [hz] at hv
    · exact hz

/-- Invariant preservation for a `NewHead` insertion without
confirmation: the new node sits at head + 1, and when the confirmation
window is live (`K ≤ bn`) the slot `bn - K` is known to be empty. -/
theorem inv_newHead_insert (cfg : Cfg) (s st' : State) (d bn hh : Nat)
    (hK : 1 ≤ cfg.blockTreePruningDepth)
    (hbn : bn = s.headReceiptNumber d + 1)
    (hH : ∀ x, st'.headReceiptNumber x = setF s.headReceiptNumber d bn x)
    (hC : ∀ x, st'.latestConfirmedDomainBlock x = s.latestConfirmedDomainBlock x)
    (hT : ∀ x y, st'.blockTree x y = setF2 s.blockTree d bn (some hh) x y)
    (hNoc : cfg.blockTreePruningDepth ≤ bn →
      st'.blockTree d (bn - cfg.blockTreePruningDepth) = none)
    (hInv : Inv cfg s) : Inv cfg st' := by
  intro d'
  have hconf : ∀ x, latest_confirmed_domain_block_number st' x =
      latest_confirmed_domain_block_number s x := by
    intro x
    unfold latest_confirmed_domain_block_number
    rw [hC x]
  by_cases hd' : d' = d
  · subst hd'
    obtain ⟨h1, h2, h3⟩ := hInv d'
    refine ⟨?_, ?_, ?_⟩
    · rw [hconf, hH, setF_self]
      omega
    · intro bn' hne hsome
      rw [hconf]
      rw [hT] at hsome
      by_cases hbb : bn' = bn
      · omega
      · rw [setF2_ne _ _ _ _ _ _ (by simp [hbb])] at hsome
        exact h2 bn' hne hsome
    · intro bn' hne hsome
      rw [hH, setF_self]
      rw [hT] at hsome
      by_cases hbb : bn' = bn
      · omega
      · rw [setF2_ne _ _ _ _ _ _ (by simp [hbb])] at hsome
        have hb3 := h3 bn' hne hsome
        by_cases hKbn : cfg.blockTreePruningDepth ≤ bn
        · have hnc := hNoc hKbn
          have hbc : bn' ≠ bn - cfg.blockTreePruningDepth := by
            intro hcon
            rw [hT] at hnc
            rw [setF2_ne _ _ _ _ _ _ (by simp; omega)] at hnc
            rw [hcon, hnc] at hsome
            exact absurd hsome (by simp)
          omega
        · omega
  · obtain ⟨h1, h2, h3⟩ := hInv d'
    refine ⟨?_, ?_, ?_⟩
    · rw [hconf, hH, setF_ne _ _ _ _ hd']
      exact h1
    · intro bn' hne hsome
      rw [hconf]
      rw [hT, setF2_ne _ _ _ _ _ _ (by simp [hd'])] at hsome
      exact h2 bn' hne hsome
    · intro bn' hne hsome
      rw [hH, setF_ne _ _ _ _ hd']
      rw [hT, setF2_ne _ _ _ _ _ _ (by simp [hd'])] at hsome
      exact h3 bn' hne hsome

/-- Invariant preservation for a `NewHead` insertion with confirmation
of the node at `bn - K`: the confirmed slot leaves the tree and becomes
the new latest confirmed block. -/
theorem inv_newHead_confirm (cfg : Cfg) (s st' : State) (d bn hh bh : Nat)
    (hK : 1 ≤ cfg.blockTreePruningDepth)
    (hKbn : cfg.blockTreePruningDepth ≤ bn)
    (hbn : bn = s.headReceiptNumber d + 1)
    (hH : ∀ x, st'.headReceiptNumber x = setF s.headReceiptNumber d bn x)
    (hC : ∀ x, st'.latestConfirmedDomainBlock x =
      if x = d then some ⟨bn - cfg.blockTreePruningDepth, bh⟩
      else s.latestConfirmedDomainBlock x)
    (hT : ∀ x y, st'.blockTree x y = setF2 s.blockTree d bn (some hh) x y ∨
      st'.blockTree x y = none)
    (hTc : st'.blockTree d (bn - cfg.blockTreePruningDepth) = none)
    (hInv : Inv cfg s) : Inv cfg st' := by
  intro d'
  by_cases hd' : d' = d
  · subst hd'
    obtain ⟨h1, h2, h3⟩ := hInv d'
    have hconf : latest_confirmed_domain_block_number st' d' =
        bn - cfg.blockTreePruningDepth := by
      unfold latest_confirmed_domain_block_number
      rw [hC d', if_pos rfl]
      rfl
    refine ⟨?_, ?_, ?_⟩
    · rw [hconf, hH, setF_self]
      omega
    · intro bn' hne hsome
      rw [hconf]
      have hbc : bn' ≠ bn - cfg.blockTreePruningDepth := by
        intro hcon
        rw [hcon, hTc] at hsome
        exact absurd hsome (by simp)
      rcases hT d' bn' with heq | hnone
      · rw [heq] at hsome
        by_cases hbb : bn' = bn
        · omega
        · rw [setF2_ne _ _ _ _ _ _ (by simp [hbb])] at hsome
          have hb3 := h3 bn' hne hsome
          omega
      · rw [hnone] at hsome
        exact absurd hsome (by simp)
    · intro bn' hne hsome
      rw [hH, setF_self]
      have hbc : bn' ≠ bn - cfg.blockTreePruningDepth := by
        intro hcon
        rw [hcon, hTc] at hsome
        exact absurd hsome (by simp)
      rcases hT d' bn' with heq | hnone
      · rw [heq] at hsome
        by_cases hbb : bn' = bn
        · omega
        · rw [setF2_ne _ _ _ _ _ _ (by simp [hbb])] at hsome
          have hb3 := h3 bn' hne hsome
          omega
      · rw [hnone] at hsome
        exact absurd hsome (by simp)
  · obtain ⟨h1, h2, h3⟩ := hInv d'
    have hconf : latest_confirmed_domain_block_number st' d' =
        latest_confirmed_domain_block_number s d' := by
      unfold latest_confirmed_domain_block_number
      rw [hC d', if_neg hd']
    refine ⟨?_, ?_, ?_⟩
    · rw [hconf, hH, setF_ne _ _ _ _ hd']
      exact h1
    · intro bn' hne hsome
      rw [hconf]
      rcases hT d' bn' with heq | hnone
      · rw [heq, setF2_ne _ _ _ _ _ _ (by simp [hd'])] at hsome
        exact h2 bn' hne hsome
      · rw [hnone] at hsome
        exact absurd hsome (by simp)
    · intro bn' hne hsome
      rw [hH, setF_ne _ _ _ _ hd']
      rcases hT d' bn' with heq | hnone
      · rw [heq, setF2_ne _ _ _ _ _ _ (by simp [hd'])] at hsome
        exact h3 bn' hne hsome
      · rw [hnone] at hsome
        exact absurd hsome (by simp)

/-- The pre-prune phase of `submit_bundle` preserves the head receipt
number and the latest confirmed block and only shrinks the block
tree. -/
theorem bundlePrunePhase_shrink (st : State) (d : Nat) (er : ExecutionReceipt)
    (t : AcceptedReceiptType) (st' : State) (ev : List Event)
    (h : bundlePrunePhase st d er t = .ok (st', ev)) :
    st'.headReceiptNumber = st.headReceiptNumber ∧
    st'.latestConfirmedDomainBlock = st.latestConfirmedDomainBlock ∧
    (∀ x y, st'.blockTree x y = st.blockTree x y ∨ st'.blockTree x y = none) := by
  unfold bundlePrunePhase at h
  rcases t with _ | _
  · simp only at h
    split at h
    · exact absurd h (by simp)
    next node st1 hp =>
      split at h
      · exact absurd h (by simp)
      next st2 ev2 hs =>
        cases h
        obtain ⟨-, hH1, hC1, -, -, -, -, -, -, hT1, -, -⟩ :=
          prune_receipt_ok_spec _ _ _ _ _ hp
        obtain ⟨-, -, -, -, -, -, -, hbt2, -, hH2, -, -, -, -, -, -, hC2, -⟩ :=
          do_slash_operators_ok_spec _ _ _ _ _ hs
        refine ⟨hH2.trans hH1, hC2.trans hC1, ?_⟩
        intro x y
        rw [hbt2]
        exact hT1 x y
    next st1 hp =>
      cases h
      obtain ⟨-, hH1, hC1, -, -, -, -, -, -, hT1, -, -⟩ :=
        prune_receipt_ok_spec _ _ _ _ _ hp
      exact ⟨hH1, hC1, hT1⟩
  · simp only at h
    cases h
    exact ⟨rfl, rfl, fun x y => Or.inl rfl⟩

/-- The post-confirmation phase of `submit_bundle` preserves the block
tree, the head receipt number and the latest confirmed block. -/
theorem bundleConfirmPhase_treeFrame (cfg : Cfg) (st : State) (d : Nat)
    (ci : ConfirmedInfo) (st' : State) (ev : List Event)
    (h : bundleConfirmPhase cfg st d ci = .ok (st', ev)) :
    st'.headReceiptNumber = st.headReceiptNumber ∧
    st'.latestConfirmedDomainBlock = st.latestConfirmedDomainBlock ∧
    st'.blockTree = st.blockTree := by
  unfold bundleConfirmPhase refund_storage_fee do_reward_operators at h
  simp only at h
  split at h
  · exact absurd h (by simp)
  next st6 ev2 hs =>
    obtain ⟨-, -, -, -, -, -, -, hbt6, -, hH6, -, -, -, -, -, -, hCf6, -⟩ :=
      do_slash_operators_ok_spec _ _ _ _ _ hs
    split at h
    · split at h
      · exact absurd h (by simp)
      next st7 idx hf =>
        cases h
        obtain ⟨-, hH7, hC7, hbt7, -⟩ := do_finalize_domain_current_epoch_frame _ _ _ _ hf
        exact ⟨hH7.trans hH6, hC7.trans hCf6, hbt7.trans hbt6⟩
    · cases h
      exact ⟨hH6, hCf6, hbt6⟩

/-- The common tail of `submit_bundle` preserves the block tree, the
head receipt number and the latest confirmed block. -/
theorem bundleTail_treeFrame (env : Env) (st : State) (b : OpaqueBundle) :
    (bundleTail env st b).1.blockTree = st.blockTree ∧
    (bundleTail env st b).1.headReceiptNumber = st.headReceiptNumber ∧
    (bundleTail env st b).1.latestConfirmedDomainBlock = st.latestConfirmedDomainBlock := by
  by_cases hempty : sbGet st.successfulBundles b.domainId = [] <;>
    refine ⟨?_, ?_, ?_⟩ <;> simp [bundleTail, hempty]

/-- Receipt processing preserves the per-domain receipt-tree invariant:
a `CurrentHead` vote leaves the tree geometry unchanged, and a `NewHead`
insertion at head + 1 (with or without a confirmation) keeps the head
at or above the latest confirmed block and every tree entry inside the
challenge window. -/
theorem process_execution_receipt_inv (cfg : Cfg) (st : State) (d op : Nat)
    (er : ExecutionReceipt) (t : AcceptedReceiptType) (st' : State)
    (ci : Option ConfirmedInfo)
    (hK : 1 ≤ cfg.blockTreePruningDepth)
    (hbn : t = .NewHead → er.domainBlockNumber = st.headReceiptNumber d + 1)
    (h : process_execution_receipt cfg st d op er t = .ok (st', ci))
    (hInv : Inv cfg st) : Inv cfg st' := by
  unfold process_execution_receipt at h
  match t with
  | .CurrentHead =>
    simp only at h
    split at h <;> (try split at h) <;>
      (cases h; exact inv_of_shrink cfg st _ rfl rfl (fun x y => Or.inl rfl) hInv)
  | .NewHead =>
    have hbn1 := hbn rfl
    simp only at h
    split at h
    next hKbn =>
      split at h
      · exact absurd h (by simp)
      next node stP hp =>
        obtain ⟨-, hHp, hCp, -, -, -, -, -, -, hTp, hSp, -⟩ :=
          prune_receipt_ok_spec _ _ _ _ _ hp
        cases h
        refine inv_newHead_confirm cfg st _ d er.domainBlockNumber (erHash er)
          node.executionReceipt.domainBlockHash hK hKbn hbn1 ?_ ?_ ?_ ?_ hInv
        · intro x
          show stP.headReceiptNumber x = _
          rw [hHp]
        · intro x
          show setF stP.latestConfirmedDomainBlock d
            (some ⟨er.domainBlockNumber - cfg.blockTreePruningDepth,
              node.executionReceipt.domainBlockHash⟩) x = _
          by_cases hx : x = d
          · subst hx
            rw [setF_self, if_pos rfl]
          · rw [setF_ne _ _ _ _ hx, if_neg hx, hCp]
        · intro x y
          show stP.blockTree x y = _ ∨ stP.blockTree x y = none
          rcases hTp x y with heq | hnone
          · exact Or.inl heq
          · exact Or.inr hnone
        · show stP.blockTree d (er.domainBlockNumber - cfg.blockTreePruningDepth) = none
          exact (hSp rfl).1
      next stP hp =>
        obtain ⟨-, -, -, -, -, -, -, -, -, -, -, hNone⟩ :=
          prune_receipt_ok_spec _ _ _ _ _ hp
        obtain ⟨hstP, hnone⟩ := hNone rfl
        cases h
        refine inv_newHead_insert cfg st _ d er.domainBlockNumber (erHash er)
          hK hbn1 ?_ ?_ ?_ ?_ hInv
        · intro x
          rw [hstP]
        · intro x
          rw [hstP]
        · intro x y
          rw [hstP]
        · intro hc
          rw [hstP]
          exact hnone
    next hKbn =>
      cases h
      refine inv_newHead_insert cfg st _ d er.domainBlockNumber (erHash er)
        hK hbn1 ?_ ?_ ?_ ?_ hInv
      · intro x
        rfl
      · intro x
        rfl
      · intro x y
        rfl
      · intro hc
        exact absurd hc hKbn

/-- The receipt-handling phase of `submit_bundle` preserves the
receipt-tree invariant: the classification pins a `NewHead` receipt to
head + 1, and each sub-phase either shrinks the tree or performs the
head insertion handled by `process_execution_receipt_inv`. -/
theorem handleReceipt_inv (cfg : Cfg) (st : State) (d op : Nat)
    (er : ExecutionReceipt) (t : AcceptedReceiptType) (st' : State) (ev : List Event)
    (hK : 1 ≤ cfg.blockTreePruningDepth)
    (hbn : t = .NewHead → er.domainBlockNumber = st.headReceiptNumber d + 1)
    (h : handleReceipt cfg st d op er t = .ok (st', ev))
    (hInv : Inv cfg st) : Inv cfg st' := by
  unfold handleReceipt at h
  split at h
  · exact absurd h (by simp)
  next st2 ev1 hpr =>
    obtain ⟨hH2, hC2, hT2⟩ := bundlePrunePhase_shrink _ _ _ _ _ _ hpr
    have hInv2 : Inv cfg st2 := inv_of_shrink cfg st st2 hC2 hH2 hT2 hInv
    have hbn2 : t = .NewHead → er.domainBlockNumber = st2.headReceiptNumber d + 1 := by
      intro ht
      rw [hH2]
      exact hbn ht
    split at h
    · exact absurd h (by simp)
    · next st3 hp3 =>
      cases h
      exact process_execution_receipt_inv cfg st2 d op er t _ _ hK hbn2 hp3 hInv2
    · next st3 ci hp3 =>
      have hInv3 := process_execution_receipt_inv cfg st2 d op er t _ _ hK hbn2 hp3 hInv2
      split at h
      · exact absurd h (by simp)
      next st7 ev2 hcf =>
        cases h
        obtain ⟨hH7, hC7, hT7⟩ := bundleConfirmPhase_treeFrame _ _ _ _ _ _ hcf
        exact inv_of_shrink cfg st3 _ hC7 hH7
          (fun x y => Or.inl (congrFun (congrFun hT7 x) y)) hInv3

/-- A successfully dispatched bundle preserves the receipt-tree
invariant. -/
theorem submit_bundle_inv (cfg : Cfg) (env : Env) (st : State) (b : OpaqueBundle)
    (st' : State) (ev : List Event)
    (hK : 1 ≤ cfg.blockTreePruningDepth)
    (h : submit_bundle cfg env st b = .ok (st', ev))
    (hInv : Inv cfg st) : Inv cfg st' := by
  unfold submit_bundle at h
  split at h
  · exact absurd h (by simp)
  next t hcls =>
    split at h
    · exact absurd h (by simp)
    next st1 ev1 hhr =>
      cases h
      have hbn : t = .NewHead →
          (OpaqueBundle.intoReceipt b).domainBlockNumber =
            st.headReceiptNumber b.domainId + 1 := by
        intro ht
        subst ht
        exact execution_receipt_type_newHead_bn _ _ _ hcls
      have hInv1 :=
        handleReceipt_inv cfg st b.domainId b.operatorId _ t _ _ hK hbn hhr hInv
      obtain ⟨hT, hH, hC⟩ := bundleTail_treeFrame env st1 b
      exact inv_of_shrink cfg st1 _ hC hH
        (fun x y => Or.inl (congrFun (congrFun hT x) y)) hInv1

/-- What a successful bad-receipt fraud-proof dispatch does to the
receipt-tree state: the targeted receipt number was at or below the
head and present in the tree, the head drops to that number minus one,
the latest confirmed block is unchanged, and the tree only shrinks. -/
theorem submit_fraud_proof_badER_spec (st : State) (fp : FraudProof) (bad_hash : Nat)
    (node : BlockTreeNode) (st' : State) (ev : List Event)
    (hT : fp.targetedBadReceiptHash = some bad_hash)
    (hN : st.blockTreeNodes bad_hash = some node)
    (h : submit_fraud_proof st fp = .ok (st', ev)) :
    node.executionReceipt.domainBlockNumber ≤ st.headReceiptNumber fp.domainId ∧
    (st.blockTree fp.domainId node.executionReceipt.domainBlockNumber).isSome ∧
    (∀ x, st'.headReceiptNumber x =
      setF st.headReceiptNumber fp.domainId
        (node.executionReceipt.domainBlockNumber - 1) x) ∧
    st'.latestConfirmedDomainBlock = st.latestConfirmedDomainBlock ∧
    (∀ x y, st'.blockTree x y = st.blockTree x y ∨ st'.blockTree x y = none) := by
  unfold submit_fraud_proof at h
  rw [hT] at h
  simp only [hN] at h
  split at h
  · exact absurd h (by simp)
  next hlt =>
    split at h
    · exact absurd h (by simp)
    · exact absurd h (by simp)
    next bnode st1 hp =>
      obtain ⟨-, hH1, hC1, -, -, -, -, -, -, hT1, hSp, -⟩ :=
        prune_receipt_ok_spec _ _ _ _ _ hp
      split at h
      · exact absurd h (by simp)
      next st2 ev2 hs =>
        cases h
        obtain ⟨-, -, -, -, -, -, -, hbt2, -, hH2, -, -, -, -, -, -, hC2, -⟩ :=
          do_slash_operators_ok_spec _ _ _ _ _ hs
        refine ⟨by omega, (hSp rfl).2, ?_, ?_, ?_⟩
        · intro x
          show setF st2.headReceiptNumber fp.domainId
            (node.executionReceipt.domainBlockNumber - 1) x = _
          rw [hH2, hH1]
        · show st2.latestConfirmedDomainBlock = _
          exact hC2.trans hC1
        · intro x y
          show st2.blockTree x y = _ ∨ st2.blockTree x y = none
          rw [hbt2]
          exact hT1 x y

/-- A fraud-proof dispatch with no targeted bad receipt (bundle
equivocation or an unrecognised variant) leaves the head receipt
number, the latest confirmed block and the block tree unchanged. -/
theorem submit_fraud_proof_noTarget_frame (st : State) (fp : FraudProof)
    (st' : State) (ev : List Event)
    (hT : fp.targetedBadReceiptHash = none)
    (h : submit_fraud_proof st fp = .ok (st', ev)) :
    st'.headReceiptNumber = st.headReceiptNumber ∧
    st'.latestConfirmedDomainBlock = st.latestConfirmedDomainBlock ∧
    st'.blockTree = st.blockTree := by
  unfold submit_fraud_proof at h
  rcases hOp : fp.targetedBadOperatorAndSlot with _ | pair
  · simp only [hT, hOp] at h
    cases h
    exact ⟨rfl, rfl, rfl⟩
  · obtain ⟨op, slot⟩ := pair
    simp only [hT, hOp] at h
    split at h
    · exact absurd h (by simp)
    next st1 ev1 hs =>
      cases h
      obtain ⟨-, -, -, -, -, -, -, hbt1, -, hH1, -, -, -, -, -, -, hC1, -⟩ :=
        do_slash_operators_ok_spec _ _ _ _ _ hs
      exact ⟨hH1, hC1, hbt1⟩

/-- The arithmetic core of the fraud-proof case: dropping the head to
`bn - 1` for a tree entry `bn` at or below the head, with the latest
confirmed block unchanged and the tree only shrinking, preserves the
receipt-tree invariant. -/
theorem inv_fraud_drop (cfg : Cfg) (s st' : State) (d bn : Nat)
    (hbn0 : bn ≠ 0)
    (hbt : (s.blockTree d bn).isSome)
    (hble : bn ≤ s.headReceiptNumber d)
    (hH : ∀ x, st'.headReceiptNumber x = setF s.headReceiptNumber d (bn - 1) x)
    (hC : st'.latestConfirmedDomainBlock = s.latestConfirmedDomainBlock)
    (hT : ∀ x y, st'.blockTree x y = s.blockTree x y ∨ st'.blockTree x y = none)
    (hInv : Inv cfg s) : Inv cfg st' := by
  intro d'
  obtain ⟨h1, h2, h3⟩ := hInv d'
  have hconf : latest_confirmed_domain_block_number st' d' =
      latest_confirmed_domain_block_number s d' := by
    unfold latest_confirmed_domain_block_number
    rw [hC]
  have hlt : latest_confirmed_domain_block_number s d ≤ bn - 1 := by
    have := (hInv d).2.1 bn hbn0 hbt
    omega
  by_cases hd' : d' = d
  · subst hd'
    refine ⟨?_, ?_, ?_⟩
    · rw [hconf, hH, setF_self]
      exact hlt
    · intro bn' hne hsome
      rw [hconf]
      rcases hT d' bn' with heq | hnone
      · exact h2 bn' hne (heq ▸ hsome)
      · rw [hnone] at hsome
        exact absurd hsome (by simp)
    · intro bn' hne hsome
      rw [hH, setF_self]
      rcases hT d' bn' with heq | hnone
      · have := h3 bn' hne (heq ▸ hsome)
        omega
      · rw [hnone] at hsome
        exact absurd hsome (by simp)
  · refine ⟨?_, ?_, ?_⟩
    · rw [hconf, hH, setF_ne _ _ _ _ hd']
      exact h1
    · intro bn' hne hsome
      rw [hconf]
      rcases hT d' bn' with heq | hnone
      · exact h2 bn' hne (heq ▸ hsome)
      · rw [hnone] at hsome
        exact absurd hsome (by simp)
    · intro bn' hne hsome
      rw [hH, setF_ne _ _ _ _ hd']
      rcases hT d' bn' with heq | hnone
      · exact h3 bn' hne (heq ▸ hsome)
      · rw [hnone] at hsome
        exact absurd hsome (by simp)

/-- A validated and successfully dispatched fraud proof preserves the
receipt-tree invariant. -/
theorem submit_fraud_proof_inv (cfg : Cfg) (st : State) (fp : FraudProof)
    (st' : State) (ev : List Event) (tp : FraudProofTag × Nat)
    (hval : validate_fraud_proof cfg st fp = .ok tp)
    (h : submit_fraud_proof st fp = .ok (st', ev))
    (hInv : Inv cfg st) : Inv cfg st' := by
  rcases hTt : fp.targetedBadReceiptHash with _ | bad_hash
  · obtain ⟨hH, hC, hbt⟩ := submit_fraud_proof_noTarget_frame _ _ _ _ hTt h
    exact inv_of_shrink cfg st st' hC hH
      (fun x y => Or.inl (congrFun (congrFun hbt x) y)) hInv
  · obtain ⟨node, hN, hbn0⟩ := validate_fraud_proof_ok_target cfg st fp bad_hash tp hTt hval
    obtain ⟨hle, hbt, hH, hC, hTr⟩ :=
      submit_fraud_proof_badER_spec st fp bad_hash node st' ev hTt hN h
    exact inv_fraud_drop cfg st st' fp.domainId
      node.executionReceipt.domainBlockNumber hbn0 hbt hle hH hC hTr hInv

/-- `on_initialize` does not touch the receipt trees. -/
theorem on_initialize_inv (cfg : Cfg) (st : State) (bn : Nat) (env : Env)
    (hInv : Inv cfg st) : Inv cfg ( on_initialize st bn env) :=
  inv_of_shrink cfg st _ rfl rfl (fun x y => Or.inl rfl) hInv

/-- `on_finalize` does not touch the receipt trees. -/
theorem on_finalize_inv (cfg : Cfg) (st : State)
    (hInv : Inv cfg st) : Inv cfg (on_finalize st) :=
  inv_of_shrink cfg st _ rfl rfl (fun x y => Or.inl rfl) hInv

/-- Every pallet step — validated bundle, validated fraud proof or
hook — preserves the receipt-tree invariant (for a positive pruning
depth). -/
theorem inv_step (cfg : Cfg) (st st' : State)
    (hK : 1 ≤ cfg.blockTreePruningDepth)
    (hstep : Step cfg st st') (hInv : Inv cfg st) : Inv cfg st' := by
  cases hstep with
  | bundle env b st st' ev hval hsub =>
    exact submit_bundle_inv cfg env st b st' ev hK hsub hInv
  | fraudProof fp st st' ev tp hval hsub =>
    exact submit_fraud_proof_inv cfg st fp st' ev tp hval hsub hInv
  | initHook st bn env =>
    exact on_initialize_inv cfg st bn env hInv
  | finalizeHook st =>
    exact on_finalize_inv cfg st hInv

/-- The receipt-tree invariant holds in every reachable state. -/
theorem inv_reachable (cfg : Cfg) (st0 st : State)
    (hK : 1 ≤ cfg.blockTreePruningDepth)
    (h0 : Inv cfg st0) (h : Reachable cfg st0 st) : Inv cfg st := by
  induction h with
  | refl => exact h0
  | step hre hstep ih => exact inv_step cfg _ _ hK hstep ih

/-- The all-default genesis storage satisfies the receipt-tree
invariant. -/
theorem inv_emptyState (cfg : Cfg) : Inv cfg emptyState := by
  intro d
  refine ⟨?_, ?_, ?_⟩
  · simp [latest_confirmed_domain_block_number, emptyState]
  · intro bn hne hsome
    simp [emptyState] at hsome
  · intro bn hne hsome
    simp [emptyState] at hsome

/-- Claim C2: for every domain and every sequence of applied bundle and
fraud-proof extrinsics (and block-boundary hooks), starting from any
state satisfying the receipt-tree invariant — in particular the
genesis storage — and under a positive pruning depth,
`HeadReceiptNumber(domain)` stays at or above
`latest_confirmed_domain_block_number(domain)` at all times; in
particular a validated fraud proof that is dispatched successfully
against a bad receipt lowers the head receipt number to the bad
receipt's block number minus one, which still does not drop below the
latest confirmed domain block number. -/
theorem c2_head_receipt_never_below_confirmed (cfg : Cfg) (st0 st : State) (d : Nat)
    (hK : 1 ≤ cfg.blockTreePruningDepth)
    (hInv0 : Inv cfg st0)
    (hre : Reachable cfg st0 st) :
    latest_confirmed_domain_block_number st d ≤ st.headReceiptNumber d ∧
    (∀ (fp : FraudProof) (st' : State) (ev : List Event) (tp : FraudProofTag × Nat)
      (bad_hash : Nat) (node : BlockTreeNode),
      validate_fraud_proof cfg st fp = .ok tp →
      submit_fraud_proof st fp = .ok (st', ev) →
      fp.targetedBadReceiptHash = some bad_hash →
      st.blockTreeNodes bad_hash = some node →
      st'.headReceiptNumber fp.domainId =
        node.executionReceipt.domainBlockNumber - 1 ∧
      latest_confirmed_domain_block_number st' fp.domainId ≤
        st'.headReceiptNumber fp.domainId) := by
  have hInv := inv_reachable cfg st0 st hK hInv0 hre
  refine ⟨(hInv d).1, ?_⟩
  intro fp st' ev tp bad_hash node hval hsub hTt hN
  obtain ⟨hle, hbt, hH, hC, hTr⟩ :=
    submit_fraud_proof_badER_spec st fp bad_hash node st' ev hTt hN hsub
  have hInv' : Inv cfg st' :=
    submit_fraud_proof_inv cfg st fp st' ev tp hval hsub hInv
  constructor
  · rw [hH, setF_self]
  · exact (hInv' fp.domainId).1

/-- Witness for C2: the concrete configuration `cfgW` has a positive
pruning depth, and at the genesis storage (reachable from itself) the
head receipt number of domain 0 is at or above the latest confirmed
block number. -/
theorem c2_head_receipt_never_below_confirmed_witness :
    1 ≤ cfgW.blockTreePruningDepth ∧
    latest_confirmed_domain_block_number emptyState 0 ≤ emptyState.headReceiptNumber 0 :=
  ⟨by decide,
    (c2_head_receipt_never_below_confirmed cfgW emptyState emptyState 0
      (by decide) (inv_emptyState cfgW) Reachable.refl).1⟩

end PalletDomains
